import Mathlib

/-!
# ibc-go, `modules/core/24-host/parse.go`: identifier and path parsing

A shallow embedding of the parsers of the 24-host package, with the Go library
functions they call (`strings.HasPrefix`, `strings.Split`, `strings.TrimSpace`,
`strconv.ParseUint`, `regexp.FindAllString` for the pattern `[^/]+`).

Modelling conventions.

* A Go string is modelled as the list of its Unicode code points (`List Char`),
  that is, the development covers the strings that are valid UTF-8.  On such
  strings byte-wise prefix and substring search coincide with the code-point
  versions because UTF-8 is self-synchronising.
* A Go result `(value, err)` is modelled as a pair whose second component is an
  `Option Error`; `none` is the `nil` error.
* An error is modelled by its root cause: `errorsmod.Wrap` and `Wrapf` only add
  a message, so `errors.Is` on the wrapped error is decided by the cause.
* `uint64` is `Nat` with explicit reduction modulo `2 ^ 64`.
* A function that may panic returns a `Must` value.
-/

namespace Host

/-- A Go string: the list of its code points. -/
abbrev GoString := List Char

/-- Root causes of the errors the parsers return.  `ErrInvalidID` and
`ErrInvalidPath` are the registered errors of the host package, `ErrSyntax` and
`ErrRange` are the two causes a `*strconv.NumError` of `ParseUint` carries. -/
inductive Error where
  | ErrInvalidID
  | ErrInvalidPath
  | ErrSyntax
  | ErrRange
  deriving DecidableEq, Repr

/-- Outcome of a function that either returns or panics. -/
inductive Must (α : Type) where
  | returns (v : α)
  | panics (e : Error)
  deriving DecidableEq, Repr

/-- Modelled from the spec: constant `KeyClientStorePrefix` of the host package's
key file, which is not among the sources; its value is "clients". -/
def KeyClientStorePrefix : GoString := "clients".data

/-- Modelled from the spec: constant `KeyClientState` of the host package's key
file, which is not among the sources; its value is "clientState". -/
def KeyClientState : GoString := "clientState".data

/-- Modelled from the spec: constant `KeyPortPrefix` of the host package's key
file, which is not among the sources; its value is "ports". -/
def KeyPortPrefix : GoString := "ports".data

/-- Modelled from the spec: constant `KeyChannelPrefix` of the host package's key
file, which is not among the sources; its value is "channels". -/
def KeyChannelPrefix : GoString := "channels".data

/-! ## Go library functions -/

/-- Go `strings.HasPrefix`. -/
def HasPrefix (s pre : GoString) : Bool := pre.isPrefixOf s

/-- Go `strings.Cut`: the text before and after the leftmost occurrence of a
non-empty separator, `none` when the separator does not occur. -/
def Cut (sep : GoString) : GoString → Option (GoString × GoString)
  | [] => none
  | c :: t =>
    if sep.isPrefixOf (c :: t) then some ([], (c :: t).drop sep.length)
    else match Cut sep t with
      | none => none
      | some (a, b) => some (c :: a, b)

/-- The loop of Go `strings.genSplit` for a non-empty separator: at most `n`
cuts at the leftmost occurrence, the rest of the string is the last piece. -/
def splitLoop (sep : GoString) : Nat → GoString → List GoString
  | 0, s => [s]
  | n + 1, s =>
    match Cut sep s with
    | none => [s]
    | some (a, b) => a :: splitLoop sep n b

/-- Go `strings.Split(s, sep)`.  With an empty separator the string is exploded
into its code points; otherwise it is cut at every non-overlapping occurrence of
the separator, of which there are at most `len(s)`. -/
def Split (s sep : GoString) : List GoString :=
  if sep = [] then s.map (fun c => [c]) else splitLoop sep s.length s

/-- Go `unicode.IsSpace`. -/
def IsSpace (c : Char) : Bool :=
  let r := c.toNat
  if r ≤ 0xFF then
    r = 0x09 || r = 0x0A || r = 0x0B || r = 0x0C || r = 0x0D || r = 0x20
      || r = 0x85 || r = 0xA0
  else
    r = 0x1680 || (0x2000 ≤ r && r ≤ 0x200A) || r = 0x2028 || r = 0x2029
      || r = 0x202F || r = 0x205F || r = 0x3000

/-- Go `strings.TrimSpace`: the string without its leading and trailing white
space. -/
def TrimSpace (s : GoString) : GoString :=
  (((s.dropWhile IsSpace).reverse).dropWhile IsSpace).reverse

/-- Largest `uint64`. -/
def maxUint64 : Nat := 18446744073709551615

/-- The digit value `strconv.ParseUint` gives a byte: decimal digits count as
themselves, ASCII letters as 10 to 35, anything else has no value. -/
def digitVal (c : Char) : Option Nat :=
  let b := c.toNat
  if 48 ≤ b ∧ b ≤ 57 then some (b - 48)
  else if (65 ≤ b ∧ b ≤ 90) ∨ (97 ≤ b ∧ b ≤ 122) then some ((b ||| 32) - 97 + 10)
  else none

/-- The digit loop of `strconv.ParseUint(s, 10, 64)`, started with the value `n`
accumulated so far. -/
def parseUintLoop : Nat → GoString → Nat × Option Error
  | n, [] => (n, none)
  | n, c :: t =>
    match digitVal c with
    | none => (0, some Error.ErrSyntax)
    | some d =>
      if d ≥ 10 then (0, some Error.ErrSyntax)
      else if n ≥ maxUint64 / 10 + 1 then (maxUint64, some Error.ErrRange)
      else
        let n10 := (n * 10) % (maxUint64 + 1)
        let n1 := (n10 + d) % (maxUint64 + 1)
        if n1 < n10 ∨ n1 > maxUint64 then (maxUint64, some Error.ErrRange)
        else parseUintLoop n1 t

/-- Go `strconv.ParseUint(s, 10, 64)`. -/
def ParseUint (s : GoString) : Nat × Option Error :=
  if s = [] then (0, some Error.ErrSyntax) else parseUintLoop 0 s

/-- The scan behind `FindAllString` for `[^/]+`: `run` is the match in
progress, a slash ends it, and an empty run is no match. -/
def findAllRuns : GoString → GoString → List GoString
  | run, [] => if run = [] then [] else [run]
  | run, c :: t =>
    if c = '/' then
      if run = [] then findAllRuns [] t else run :: findAllRuns [] t
    else findAllRuns (run ++ [c]) t

/-- The call `pathRegex.FindAllString(path, -1)` with `pathRegex = [^/]+`: the
successive leftmost, longest, non-overlapping matches. -/
def pathRegexFindAllString (path : GoString) : List GoString :=
  findAllRuns [] path

/-! ## The parsers of `parse.go` -/

/-- Source function `ParseIdentifier(identifier, prefix)`. -/
def ParseIdentifier (identifier pre : GoString) : Nat × Option Error :=
  if !HasPrefix identifier pre then (0, some Error.ErrInvalidID)
  else
    let splitStr := Split identifier pre
    if splitStr.length ≠ 2 then (0, some Error.ErrInvalidID)
    else if splitStr.getD 0 [] ≠ [] then (0, some Error.ErrInvalidID)
    else
      match ParseUint (splitStr.getD 1 []) with
      | (sequence, none) => (sequence, none)
      | (_, some err) => (0, some err)

/-- Source function `parseClientStatePath(path)`. -/
def parseClientStatePath (path : GoString) : GoString × Option Error :=
  let found := pathRegexFindAllString path
  if found.length ≠ 3 then ([], some Error.ErrInvalidPath)
  else if found.getD 0 [] ≠ KeyClientStorePrefix then ([], some Error.ErrInvalidPath)
  else if found.getD 2 [] ≠ KeyClientState then ([], some Error.ErrInvalidPath)
  else if TrimSpace (found.getD 1 []) = [] then ([], some Error.ErrInvalidPath)
  else (found.getD 1 [], none)

/-- Source function `MustParseClientStatePath(path)`. -/
def MustParseClientStatePath (path : GoString) : Must GoString :=
  match parseClientStatePath path with
  | (clientID, none) => Must.returns clientID
  | (_, some err) => Must.panics err

/-- Source function `ParseConnectionPath(path)`. -/
def ParseConnectionPath (path : GoString) : GoString × Option Error :=
  let found := pathRegexFindAllString path
  if found.length = 1 then (found.getD 0 [], none)
  else if found.length ≠ 2 then ([], some Error.ErrInvalidPath)
  else (found.getD 1 [], none)

/-- Source function `ParseChannelPath(path)`. -/
def ParseChannelPath (path : GoString) : GoString × GoString × Option Error :=
  let split := Split path ['/']
  if split.length < 5 then ([], [], some Error.ErrInvalidPath)
  else if split.getD 1 [] ≠ KeyPortPrefix ∨ split.getD 3 [] ≠ KeyChannelPrefix then
    ([], [], some Error.ErrInvalidPath)
  else (split.getD 2 [], split.getD 4 [], none)

/-- Source function `MustParseConnectionPath(path)`. -/
def MustParseConnectionPath (path : GoString) : Must GoString :=
  match ParseConnectionPath path with
  | (connectionID, none) => Must.returns connectionID
  | (_, some err) => Must.panics err

/-- Source function `MustParseChannelPath(path)`. -/
def MustParseChannelPath (path : GoString) : Must (GoString × GoString) :=
  match ParseChannelPath path with
  | (portID, channelID, none) => Must.returns (portID, channelID)
  | (_, _, some err) => Must.panics err


/-! ## The parsers with the slice indexing made explicit -/

/-- Outcome of running Go code that a slice index out of range stops with a
run-time panic. -/
inductive Run (α : Type) where
  | done (v : α)
  | indexOutOfRange
  deriving DecidableEq, Repr

/-- Sequencing: a panic of the first step is the panic of the whole. -/
def Run.andThen {α β : Type} (r : Run α) (f : α → Run β) : Run β :=
  match r with
  | Run.done v => f v
  | Run.indexOutOfRange => Run.indexOutOfRange

/-- Go slice indexing `xs[i]`, which panics unless `i < len(xs)`. -/
def index (xs : List GoString) (i : Nat) : Run GoString :=
  match xs[i]? with
  | some x => Run.done x
  | none => Run.indexOutOfRange

/-- Source function `ParseIdentifier`, every index `splitStr[i]` checked. -/
def ParseIdentifierRun (identifier pre : GoString) : Run (Nat × Option Error) :=
  if !HasPrefix identifier pre then Run.done (0, some Error.ErrInvalidID)
  else
    let splitStr := Split identifier pre
    if splitStr.length ≠ 2 then Run.done (0, some Error.ErrInvalidID)
    else
      (index splitStr 0).andThen fun s0 =>
        if s0 ≠ [] then Run.done (0, some Error.ErrInvalidID)
        else
          (index splitStr 1).andThen fun s1 =>
            match ParseUint s1 with
            | (sequence, none) => Run.done (sequence, none)
            | (_, some err) => Run.done (0, some err)

/-- Source function `parseClientStatePath`, every index `matches[i]` checked. -/
def parseClientStatePathRun (path : GoString) : Run (GoString × Option Error) :=
  let found := pathRegexFindAllString path
  if found.length ≠ 3 then Run.done ([], some Error.ErrInvalidPath)
  else
    (index found 0).andThen fun m0 =>
      if m0 ≠ KeyClientStorePrefix then Run.done ([], some Error.ErrInvalidPath)
      else
        (index found 2).andThen fun m2 =>
          if m2 ≠ KeyClientState then Run.done ([], some Error.ErrInvalidPath)
          else
            (index found 1).andThen fun m1 =>
              if TrimSpace m1 = [] then Run.done ([], some Error.ErrInvalidPath)
              else (index found 1).andThen fun clientID => Run.done (clientID, none)

/-- Source function `ParseConnectionPath`, every index `matches[i]` checked. -/
def ParseConnectionPathRun (path : GoString) : Run (GoString × Option Error) :=
  let found := pathRegexFindAllString path
  if found.length = 1 then (index found 0).andThen fun m0 => Run.done (m0, none)
  else if found.length ≠ 2 then Run.done ([], some Error.ErrInvalidPath)
  else (index found 1).andThen fun connectionID => Run.done (connectionID, none)

/-- Source function `ParseChannelPath`, every index `split[i]` checked; the
second comparison of the disjunction is evaluated only when the first is false. -/
def ParseChannelPathRun (path : GoString) : Run (GoString × GoString × Option Error) :=
  let split := Split path ['/']
  if split.length < 5 then Run.done ([], [], some Error.ErrInvalidPath)
  else
    (index split 1).andThen fun s1 =>
      if s1 ≠ KeyPortPrefix then Run.done ([], [], some Error.ErrInvalidPath)
      else
        (index split 3).andThen fun s3 =>
          if s3 ≠ KeyChannelPrefix then Run.done ([], [], some Error.ErrInvalidPath)
          else
            (index split 2).andThen fun portID =>
              (index split 4).andThen fun channelID => Run.done (portID, channelID, none)

/-! ## Notions the statements use -/

/-- An ASCII decimal digit, `0` to `9`. -/
def isDecimalDigit (c : Char) : Bool := decide (48 ≤ c.toNat ∧ c.toNat ≤ 57)

/-- The number a string of decimal digits denotes, read from the value `n`
accumulated so far. -/
def decimalValueFrom (n : Nat) (d : GoString) : Nat :=
  d.foldl (fun a c => 10 * a + (c.toNat - 48)) n

/-- The number a string of decimal digits denotes in base 10. -/
def decimalValue (d : GoString) : Nat := decimalValueFrom 0 d

/-- The character of a decimal digit. -/
def digitChar : Nat → Char
  | 0 => '0'
  | 1 => '1'
  | 2 => '2'
  | 3 => '3'
  | 4 => '4'
  | 5 => '5'
  | 6 => '6'
  | 7 => '7'
  | 8 => '8'
  | _ => '9'

/-- The digits of `n` in base 10, most significant first, put before `acc`;
`fuel` bounds the number of digits produced. -/
def decimalLoop : Nat → Nat → GoString → GoString
  | 0, _, acc => acc
  | fuel + 1, n, acc =>
    if n < 10 then digitChar n :: acc
    else decimalLoop fuel (n / 10) (digitChar (n % 10) :: acc)

/-- The base-10 rendering of `n` without leading zeros, as `%d` prints the
sequence of a generated identifier. -/
def decimal (n : Nat) : GoString := decimalLoop (n + 1) n []

/-- The segments of a path: the maximal non-empty runs of characters other than
the slash, that is, the pieces between slashes that are not empty. -/
def nonEmptySegments (path : GoString) : List GoString :=
  (Split path ['/']).filter (fun seg => decide (seg ≠ []))

/-- Go `len(s)` of a string: its number of bytes in UTF-8. -/
def len (s : GoString) : Nat := (s.map Char.utf8Size).sum

end Host

/-! ## The JSON decoder of the Go library

A model of `json.Unmarshal` of `encoding/json` for a map from strings to
values: the scanner's grammar (white space, literals, numbers, strings with
their escapes, arrays, objects, the limit on the nesting depth) and the values
it builds. -/

namespace Json

open Host

/-- The tokens of a JSON text. -/
inductive Token where
  | lbrace
  | rbrace
  | lbracket
  | rbracket
  | colon
  | comma
  | str (s : GoString)
  | num (text : GoString)
  | litTrue
  | litFalse
  | litNull

/-- A character that a string literal holds as it is: not the quote, not the
backslash and no control character. -/
def plainChar (c : Char) : Bool := c ≠ '"' && c ≠ '\\' && decide (0x20 ≤ c.toNat)

/-! ### Memos written out as JSON text

The memos of the tests are objects whose values are texts or objects of texts,
written with a space after each colon and each comma. -/

/-- A value of a memo: a text, or an object whose values are texts. -/
inductive Entry where
  | text (s : GoString)
  | object (fields : List (GoString × GoString))
  deriving DecidableEq, Repr

/-- A text whose characters all stand for themselves in a string literal. -/
def plainText (s : GoString) : Prop := ∀ c ∈ s, plainChar c = true

/-- A value that is written out as it is: its texts and keys are plain and the
keys of an object are distinct. -/
def Entry.wellFormed : Entry → Prop
  | Entry.text s => plainText s
  | Entry.object fields =>
    (fields.map (fun f => f.1)).Nodup ∧ ∀ f ∈ fields, plainText f.1 ∧ plainText f.2

instance plainTextDecidable (s : GoString) : Decidable (plainText s) :=
  inferInstanceAs (Decidable (∀ c ∈ s, plainChar c = true))

instance wellFormedDecidable (v : Entry) : Decidable v.wellFormed :=
  match v with
  | Entry.text s => inferInstanceAs (Decidable (plainText s))
  | Entry.object fields =>
    inferInstanceAs (Decidable ((fields.map (fun (f : GoString × GoString) => f.1)).Nodup
      ∧ ∀ f ∈ fields, plainText f.1 ∧ plainText f.2))

end Json

/-! ## Interchain accounts: packet data and registered accounts

The functions of this part are exercised by the test files of the repository
but their sources are not among the files at hand: they are modelled from the
specification. -/

namespace InterchainAccounts

open Host

/-- Modelled from the spec: the type of a packet payload, the enumeration of
`UNSPECIFIED` and `EXECUTE_TX`; its declaration is missing from the sources. -/
inductive PacketType where
  | UNSPECIFIED
  | EXECUTE_TX
  deriving DecidableEq, Repr

/-- Modelled from the spec: the payload `InterchainAccountPacketData`, whose
declaration is missing from the sources: a type, the data bytes (`none` is the
nil slice) and a memo. -/
structure InterchainAccountPacketData where
  type : PacketType
  data : Option (List Nat)
  memo : GoString
  deriving DecidableEq, Repr

/-- Go `len(b)` of a byte slice; the nil slice has length 0. -/
def dataLen : Option (List Nat) → Nat
  | none => 0
  | some b => b.length

/-- Outcome of a validation: no error, or an error. -/
inductive Validation where
  | pass
  | fail
  deriving DecidableEq, Repr

/-- Modelled from the spec: `InterchainAccountPacketData.ValidateBasic`, missing
from the sources; it fails unless the type is not `UNSPECIFIED`, the data is not
empty and the length of the memo is at most the maximum memo length, a fixed
bound which the spec does not give and which is the parameter `maxMemoLength`. -/
def ValidateBasic (maxMemoLength : Nat) (pd : InterchainAccountPacketData) : Validation :=
  if pd.type = PacketType.UNSPECIFIED then Validation.fail
  else if dataLen pd.data = 0 then Validation.fail
  else if len pd.memo > maxMemoLength then Validation.fail
  else Validation.pass

/-- The memo `largeMemo` of the test file `packet_test.go`. -/
def largeMemo : GoString :=
  "Lorem ipsum dolor sit amet, consectetur adipiscing elit, sed do eiusmod tempor incididunt ut labore et dolore magna aliqua. Ut enim ad minim veniam, quis nostrud exercitation ullamco laboris nisi ut aliquip ex ea commodo consequat. Duis aute irure dolor in reprehenderit in voluptate velit esse cillum dolore eu fugiat nulla pariatur. Excepteur sint occaecat cupidatat non proident, sunt in culpa qui officia deserunt mollit anim id est laborum".data

/-- Modelled from the spec: the registered-account entries of the directory, a
map from the owner port id to the account address on the host chain. -/
abbrev AccountStore := List (GoString × GoString)

/-- The error of the directory for a second write of a registered account. -/
inductive DirectoryError where
  | ErrInterchainAccountAlreadySet
  deriving DecidableEq, Repr

/-- Modelled from the spec: `GetInterchainAccountAddress`, missing from the
sources; the address registered for the port and `found = true`, or the empty
address and `found = false`. -/
def GetInterchainAccountAddress (store : AccountStore) (portID : GoString) :
    GoString × Bool :=
  match store.lookup portID with
  | some address => (address, true)
  | none => ([], false)

/-- Modelled from the spec: `SetInterchainAccountAddress`, missing from the
sources; it writes the entry of a port once, and a second write for the port is
rejected with `ErrInterchainAccountAlreadySet` and leaves the entries as they
are. -/
def SetInterchainAccountAddress (store : AccountStore) (portID address : GoString) :
    AccountStore × Option DirectoryError :=
  match store.lookup portID with
  | some _ => (store, some DirectoryError.ErrInterchainAccountAlreadySet)
  | none => ((portID, address) :: store, none)

/-! ### The registered errors of `errors.go` -/

/-- An error registered with the error package of the Cosmos SDK: its codespace,
its code and its description. -/
structure RegisteredError where
  codespace : GoString
  code : Nat
  desc : GoString
  deriving DecidableEq, Repr

/-- The call `sdkerrors.Register(codespace, code, description)` on the registry
`used` of the errors registered so far: it panics, here `none`, when the pair of
codespace and code is already registered, and it records the new error
otherwise. -/
def Register (used : List RegisteredError) (codespace : GoString) (code : Nat)
    (desc : GoString) : Option (List RegisteredError) :=
  if used.any (fun e => decide (e.codespace = codespace ∧ e.code = code)) then none
  else some (used ++ [⟨codespace, code, desc⟩])

/-- The `var` block of `errors.go`: the name of each error variable with the code
and the description it is registered with, in the order of the file. -/
def errorDeclarations : List (String × Nat × GoString) :=
  [("ErrUnknownPacketData", 2, "unknown packet data".data),
   ("ErrAccountAlreadyExist", 3, "account already exist".data),
   ("ErrPortAlreadyBound", 4, "port is already bound for address".data),
   ("ErrUnsupportedChain", 5, "unsupported chain".data),
   ("ErrInvalidOutgoingData", 6, "invalid outgoing data".data),
   ("ErrInvalidRoute", 7, "invalid route".data),
   ("ErrInterchainAccountNotFound", 8, "interchain Account not found".data),
   ("ErrInterchainAccountAlreadySet", 9, "interchain Account is already set".data),
   ("ErrActiveChannelNotFound", 10, "no active channel for this owner".data),
   ("ErrInvalidVersion", 11, "invalid interchain accounts version".data),
   ("ErrInvalidOwnerAddress", 12, "invalid owner address".data),
   ("ErrUnsupported", 13, "interchain account does not support this action".data)]

/-- The codes of a list of declarations. -/
def declaredCodes (decls : List (String × Nat × GoString)) : List Nat :=
  decls.map (fun d => d.2.1)

/-- The code an error variable is registered with. -/
def codeOf (name : String) : Option Nat :=
  (errorDeclarations.lookup name).map (fun d => d.1)

/-- The initialisation of the package: the declarations are registered one after
the other in the codespace `ModuleName`, a constant whose declaration is missing
from the sources and which is a parameter here; `none` is a panic. -/
def registerAll (ModuleName : GoString) :
    List RegisteredError → List (String × Nat × GoString) → Option (List RegisteredError)
  | used, [] => some used
  | used, d :: rest =>
    match Register used ModuleName d.2.1 d.2.2 with
    | none => none
    | some used1 => registerAll ModuleName used1 rest

end InterchainAccounts

/-! ## Callbacks: the event of a callback

The function `EmitCallbackEvent` is exercised by the test file `events_test.go`
but its source is not among the files at hand. -/

namespace Callbacks

open Host

/-- Modelled from the spec: the constants of the callbacks package that the event
of a callback is built from and whose declarations are missing from the sources:
the three callback types, the two event types and the module name. -/
structure Constants where
  CallbackTypeAcknowledgement : GoString
  CallbackTypeTimeoutPacket : GoString
  CallbackTypeReceivePacket : GoString
  EventTypeSourceCallback : GoString
  EventTypeDestinationCallback : GoString
  ModuleName : GoString

/-- Values of the constants to instantiate the statements with. -/
def sampleConstants : Constants where
  CallbackTypeAcknowledgement := "acknowledgement_packet".data
  CallbackTypeTimeoutPacket := "timeout_packet".data
  CallbackTypeReceivePacket := "receive_packet".data
  EventTypeSourceCallback := "ibc_src_callback".data
  EventTypeDestinationCallback := "ibc_dest_callback".data
  ModuleName := "ibccallbacks".data

/-- Modelled from the spec: the keys of the attributes of a callback event, whose
string constants are missing from the sources; the test uses them as the keys of
one map literal, so they are distinct. -/
inductive AttributeKey where
  | AttributeKeyModule
  | AttributeKeyCallbackTrigger
  | AttributeKeyCallbackAddress
  | AttributeKeyCallbackGasLimit
  | AttributeKeyCallbackSourcePortID
  | AttributeKeyCallbackSourceChannelID
  | AttributeKeyCallbackSequence
  | AttributeKeyCallbackResult
  | AttributeKeyCallbackError
  deriving DecidableEq, Repr

/-- An event: its type and its attributes. -/
structure Event where
  type : GoString
  attributes : List (AttributeKey × GoString)
  deriving DecidableEq, Repr

/-- The fields of a packet that the event of a callback shows. -/
structure Packet where
  sequence : Nat
  sourcePort : GoString
  sourceChannel : GoString
  deriving DecidableEq, Repr

/-- The callback data: the address of the contract and the gas limit. -/
structure CallbackData where
  ContractAddr : GoString
  GasLimit : Nat
  deriving DecidableEq, Repr

/-- Modelled from the spec: `EmitCallbackEvent`, missing from the sources.  The
spec tells that the callback type is a string and that the construction of the
event has a fallback branch for an unknown callback type; the attributes and the
event types are those the test `TestEvents` expects.  `events` are the events of
the event manager of the context, `err` is the message of the callback error,
`none` for `nil`; the result is the events after the call. -/
def EmitCallbackEvent (k : Constants) (events : List Event) (packet : Packet)
    (callbackType : GoString) (callbackData : CallbackData) (err : Option GoString) :
    List Event :=
  let attributes : List (AttributeKey × GoString) :=
    [(AttributeKey.AttributeKeyModule, k.ModuleName),
     (AttributeKey.AttributeKeyCallbackTrigger, callbackType),
     (AttributeKey.AttributeKeyCallbackAddress, callbackData.ContractAddr),
     (AttributeKey.AttributeKeyCallbackGasLimit, decimal callbackData.GasLimit),
     (AttributeKey.AttributeKeyCallbackSourcePortID, packet.sourcePort),
     (AttributeKey.AttributeKeyCallbackSourceChannelID, packet.sourceChannel),
     (AttributeKey.AttributeKeyCallbackSequence, decimal packet.sequence)]
  let attributes :=
    match err with
    | none => attributes ++ [(AttributeKey.AttributeKeyCallbackResult, "success".data)]
    | some message =>
      attributes ++ [(AttributeKey.AttributeKeyCallbackResult, "failure".data),
        (AttributeKey.AttributeKeyCallbackError, message)]
  let eventType :=
    if callbackType = k.CallbackTypeAcknowledgement then k.EventTypeSourceCallback
    else if callbackType = k.CallbackTypeTimeoutPacket then k.EventTypeSourceCallback
    else if callbackType = k.CallbackTypeReceivePacket then k.EventTypeDestinationCallback
    else "unknown".data
  events ++ [⟨eventType, attributes⟩]

end Callbacks

namespace Host

/-! ## Lemmas on the library functions -/

theorem Cut_eq_some {sep s a b : GoString} (h : Cut sep s = some (a, b)) :
    s = a ++ sep ++ b := by
  induction s generalizing a b with
  | nil => simp [Cut] at h
  | cons c t ih =>
    unfold Cut at h
    split at h
    · rename_i hp
      simp only [Option.some.injEq, Prod.mk.injEq] at h
      obtain ⟨rfl, rfl⟩ := h
      rw [List.isPrefixOf_iff_prefix] at hp
      obtain ⟨r, hr⟩ := hp
      rw [← hr]
      simp
    · cases hc : Cut sep t with
      | none => simp [hc] at h
      | some p =>
        obtain ⟨a', b'⟩ := p
        simp only [hc, Option.some.injEq, Prod.mk.injEq] at h
        obtain ⟨rfl, rfl⟩ := h
        have := ih hc
        simp [this]

theorem Cut_length_lt {sep s a b : GoString} (hsep : sep ≠ [])
    (h : Cut sep s = some (a, b)) : b.length < s.length := by
  have h1 := Cut_eq_some h
  have h2 : 0 < sep.length := List.length_pos.mpr hsep
  rw [h1]
  simp only [List.length_append]
  omega

theorem Cut_none_of_not_mem {sep s : GoString} {c : Char} (hc : c ∈ sep)
    (hs : c ∉ s) : Cut sep s = none := by
  induction s with
  | nil => simp [Cut]
  | cons x t ih =>
    have ht : c ∉ t := fun h => hs (List.mem_cons_of_mem _ h)
    unfold Cut
    split
    · rename_i hp
      rw [List.isPrefixOf_iff_prefix] at hp
      exact absurd (hp.subset hc) hs
    · simp [ih ht]

theorem splitLoop_fuel {sep : GoString} (hsep : sep ≠ []) :
    ∀ (n m : Nat) (s : GoString), s.length ≤ n → s.length ≤ m →
      splitLoop sep n s = splitLoop sep m s := by
  intro n
  induction n with
  | zero =>
    intro m s hn _
    have hs : s = [] := List.length_eq_zero.mp (Nat.le_zero.mp hn)
    subst hs
    cases m <;> simp [splitLoop, Cut]
  | succ n ih =>
    intro m s hn hm
    cases m with
    | zero =>
      have hs : s = [] := List.length_eq_zero.mp (Nat.le_zero.mp hm)
      subst hs
      simp [splitLoop, Cut]
    | succ m =>
      simp only [splitLoop]
      cases hc : Cut sep s with
      | none => rfl
      | some p =>
        obtain ⟨a, b⟩ := p
        have hlt := Cut_length_lt hsep hc
        simp only
        rw [ih m b (by omega) (by omega)]

theorem Split_of_Cut_none {sep s : GoString} (hsep : sep ≠ [])
    (h : Cut sep s = none) : Split s sep = [s] := by
  unfold Split
  rw [if_neg hsep]
  cases hl : s.length with
  | zero => rfl
  | succ n => simp [splitLoop, h]

theorem Split_of_Cut_some {sep s a b : GoString} (hsep : sep ≠ [])
    (h : Cut sep s = some (a, b)) : Split s sep = a :: Split b sep := by
  have hlt := Cut_length_lt hsep h
  unfold Split
  rw [if_neg hsep, if_neg hsep]
  cases hl : s.length with
  | zero => omega
  | succ n =>
    simp only [splitLoop, h]
    rw [splitLoop_fuel hsep n b.length b (by omega) (le_refl _)]

theorem Split_slash_nil : Split [] ['/'] = [[]] := by decide

theorem Split_slash_cons_slash (t : GoString) :
    Split ('/' :: t) ['/'] = [] :: Split t ['/'] := by
  apply Split_of_Cut_some (by decide)
  simp [Cut]

theorem Split_slash_cons_other {c : Char} (t : GoString) (hc : c ≠ '/') :
    Split (c :: t) ['/'] = (c :: (Split t ['/']).headD []) :: (Split t ['/']).tail := by
  have hp : List.isPrefixOf ['/'] (c :: t) = false := by
    simp [List.isPrefixOf, Ne.symm hc]
  cases h : Cut ['/'] t with
  | none =>
    rw [Split_of_Cut_none (by decide) h]
    apply Split_of_Cut_none (by decide)
    simp [Cut, hp, h]
  | some p =>
    obtain ⟨a, b⟩ := p
    rw [Split_of_Cut_some (by decide) h]
    apply Split_of_Cut_some (by decide)
    simp [Cut, hp, h]

theorem Split_slash_of_not_mem {a : GoString} (ha : '/' ∉ a) : Split a ['/'] = [a] :=
  Split_of_Cut_none (by decide) (Cut_none_of_not_mem (List.mem_singleton.mpr rfl) ha)

theorem Split_slash_append {a : GoString} (b : GoString) (ha : '/' ∉ a) :
    Split (a ++ '/' :: b) ['/'] = a :: Split b ['/'] := by
  induction a with
  | nil => exact Split_slash_cons_slash b
  | cons x t ih =>
    have hx : x ≠ '/' := fun h => ha (h ▸ List.mem_cons_self _ _)
    have ht : '/' ∉ t := fun h => ha (List.mem_cons_of_mem _ h)
    rw [List.cons_append, Split_slash_cons_other _ hx, ih ht]
    rfl

theorem Split_slash_length (s : GoString) :
    (Split s ['/']).length = s.count '/' + 1 := by
  induction s with
  | nil => rfl
  | cons x t ih =>
    by_cases hx : x = '/'
    · subst hx
      rw [Split_slash_cons_slash, List.length_cons, ih, List.count_cons_self]
    · rw [Split_slash_cons_other t hx, List.count_cons_of_ne (Ne.symm hx), ← ih]
      cases h : Split t ['/'] with
      | nil => rw [h] at ih; simp at ih
      | cons a l => simp

theorem findAllRuns_of_not_mem {a : GoString} (run : GoString) (ha : '/' ∉ a) :
    findAllRuns run a = if run ++ a = [] then [] else [run ++ a] := by
  induction a generalizing run with
  | nil => simp [findAllRuns]
  | cons x t ih =>
    have hx : x ≠ '/' := fun h => ha (h ▸ List.mem_cons_self _ _)
    have ht : '/' ∉ t := fun h => ha (List.mem_cons_of_mem _ h)
    simp only [findAllRuns, if_neg hx, ih _ ht, List.append_assoc, List.singleton_append]

theorem findAllRuns_append_slash {a : GoString} (run b : GoString) (ha : '/' ∉ a) :
    findAllRuns run (a ++ '/' :: b)
      = if run ++ a = [] then findAllRuns [] b else (run ++ a) :: findAllRuns [] b := by
  induction a generalizing run with
  | nil => simp [findAllRuns]
  | cons x t ih =>
    have hx : x ≠ '/' := fun h => ha (h ▸ List.mem_cons_self _ _)
    have ht : '/' ∉ t := fun h => ha (List.mem_cons_of_mem _ h)
    have h := ih (run ++ [x]) ht
    simp only [List.append_assoc, List.singleton_append] at h
    simp only [List.cons_append, findAllRuns, if_neg hx]
    exact h

theorem TrimSpace_eq_nil_iff (s : GoString) :
    TrimSpace s = [] ↔ ∀ ch ∈ s, IsSpace ch = true := by
  unfold TrimSpace
  rw [List.reverse_eq_nil_iff, List.dropWhile_eq_nil_iff]
  constructor
  · intro h
    by_cases hd : s.dropWhile IsSpace = []
    · exact List.dropWhile_eq_nil_iff.mp hd
    · have h1 := List.head_dropWhile_not IsSpace s hd
      have h2 := h _ (List.mem_reverse.mpr (List.head_mem hd))
      simp [h2] at h1
  · intro h x hx
    have hd : s.dropWhile IsSpace = [] := List.dropWhile_eq_nil_iff.mpr h
    rw [hd] at hx
    simp at hx

/-! ## Round trips of the path parsers -/

theorem Split_channel_path (r p c : GoString)
    (hr : '/' ∉ r) (hp : '/' ∉ p) (hc : '/' ∉ c) :
    Split (r ++ ['/'] ++ KeyPortPrefix ++ ['/'] ++ p ++ ['/'] ++ KeyChannelPrefix ++ ['/'] ++ c)
        ['/']
      = [r, KeyPortPrefix, p, KeyChannelPrefix, c] := by
  have h1 : '/' ∉ KeyPortPrefix := by decide
  have h2 : '/' ∉ KeyChannelPrefix := by decide
  have hn : r ++ ['/'] ++ KeyPortPrefix ++ ['/'] ++ p ++ ['/'] ++ KeyChannelPrefix ++ ['/'] ++ c
      = r ++ '/' :: (KeyPortPrefix ++ '/' :: (p ++ '/' :: (KeyChannelPrefix ++ '/' :: c))) := by
    simp
  rw [hn, Split_slash_append _ hr, Split_slash_append _ h1, Split_slash_append _ hp,
    Split_slash_append _ h2, Split_slash_of_not_mem hc]

theorem ParseChannelPath_of_short (path : GoString) (h : (Split path ['/']).length < 5) :
    ParseChannelPath path = ([], [], some Error.ErrInvalidPath) := by
  simp [ParseChannelPath, h]

theorem ParseChannelPath_of_literals (path : GoString)
    (h : 5 ≤ (Split path ['/']).length)
    (h1 : (Split path ['/']).getD 1 [] = KeyPortPrefix)
    (h3 : (Split path ['/']).getD 3 [] = KeyChannelPrefix) :
    ParseChannelPath path
      = ((Split path ['/']).getD 2 [], (Split path ['/']).getD 4 [], none) := by
  unfold ParseChannelPath
  simp only
  rw [if_neg (by omega), if_neg (by rw [h1, h3]; simp)]

/-- Claim C1: for a store root `r`, a port id `p` and a channel id `c` without a
slash, `ParseChannelPath` applied to `r/ports/p/channels/c` returns `(p, c)` and
no error. -/
theorem ParseChannelPath_round_trip (r p c : GoString)
    (hr : '/' ∉ r) (hp : '/' ∉ p) (hc : '/' ∉ c) :
    ParseChannelPath
        (r ++ ['/'] ++ KeyPortPrefix ++ ['/'] ++ p ++ ['/'] ++ KeyChannelPrefix ++ ['/'] ++ c)
      = (p, c, none) := by
  have hs := Split_channel_path r p c hr hp hc
  rw [ParseChannelPath_of_literals _ (by rw [hs]; simp) (by rw [hs]; rfl) (by rw [hs]; rfl), hs]
  rfl

/-- Witness of claim C1: the path "channelEnds/ports/transfer/channels/channel-0"
parses to the port "transfer" and the channel "channel-0". -/
theorem ParseChannelPath_round_trip_witness :
    ParseChannelPath "channelEnds/ports/transfer/channels/channel-0".data
      = ("transfer".data, "channel-0".data, none) :=
  ParseChannelPath_round_trip "channelEnds".data "transfer".data "channel-0".data
    (by decide) (by decide) (by decide)

/-- Claim C2: for a client id `c` that is not empty, has no slash and is not made
only of white space, `parseClientStatePath` applied to `clients/c/clientState`
returns `c` and no error, and `MustParseClientStatePath` returns `c` without a
panic. -/
theorem parseClientStatePath_round_trip (c : GoString)
    (hne : c ≠ []) (hc : '/' ∉ c) (hw : ∃ ch ∈ c, IsSpace ch = false) :
    parseClientStatePath (KeyClientStorePrefix ++ ['/'] ++ c ++ ['/'] ++ KeyClientState)
        = (c, none)
      ∧ MustParseClientStatePath (KeyClientStorePrefix ++ ['/'] ++ c ++ ['/'] ++ KeyClientState)
        = Must.returns c := by
  have h1 : '/' ∉ KeyClientStorePrefix := by decide
  have h2 : '/' ∉ KeyClientState := by decide
  have hn : KeyClientStorePrefix ++ ['/'] ++ c ++ ['/'] ++ KeyClientState
      = KeyClientStorePrefix ++ '/' :: (c ++ '/' :: KeyClientState) := by
    simp
  have hf : pathRegexFindAllString
      (KeyClientStorePrefix ++ '/' :: (c ++ '/' :: KeyClientState))
      = [KeyClientStorePrefix, c, KeyClientState] := by
    unfold pathRegexFindAllString
    rw [findAllRuns_append_slash _ _ h1, findAllRuns_append_slash _ _ hc,
      findAllRuns_of_not_mem _ h2]
    simp [hne, KeyClientStorePrefix, KeyClientState]
  have ht : TrimSpace c ≠ [] := by
    rw [Ne, TrimSpace_eq_nil_iff]
    intro h
    obtain ⟨ch, hmem, hsp⟩ := hw
    rw [h ch hmem] at hsp
    exact Bool.noConfusion hsp
  rw [hn]
  have hp : parseClientStatePath
      (KeyClientStorePrefix ++ '/' :: (c ++ '/' :: KeyClientState)) = (c, none) := by
    simp [parseClientStatePath, hf, ht]
  exact ⟨hp, by simp [MustParseClientStatePath, hp]⟩

/-- Witness of claim C2: the path "clients/07-tendermint-0/clientState" parses
to the client id "07-tendermint-0". -/
theorem parseClientStatePath_round_trip_witness :
    parseClientStatePath "clients/07-tendermint-0/clientState".data
        = ("07-tendermint-0".data, none)
      ∧ MustParseClientStatePath "clients/07-tendermint-0/clientState".data
        = Must.returns "07-tendermint-0".data :=
  parseClientStatePath_round_trip "07-tendermint-0".data (by decide) (by decide)
    ⟨'0', by decide, by decide⟩

/-- Claim C3: for a connection id `c` that is not empty and has no slash,
`ParseConnectionPath` applied to `connections/c` returns `c` and no error. -/
theorem ParseConnectionPath_round_trip (c : GoString) (hne : c ≠ []) (hc : '/' ∉ c) :
    ParseConnectionPath ("connections/".data ++ c) = (c, none) := by
  have h1 : '/' ∉ "connections".data := by decide
  have he : "connections/".data ++ c = "connections".data ++ '/' :: c := by
    simp
  have hf : pathRegexFindAllString ("connections/".data ++ c) = ["connections".data, c] := by
    unfold pathRegexFindAllString
    rw [he, findAllRuns_append_slash _ _ h1, findAllRuns_of_not_mem _ hc]
    simp [hne]
  unfold ParseConnectionPath
  rw [hf]
  rfl

/-- Witness of claim C3: the path "connections/connection-0" parses to the
connection id "connection-0". -/
theorem ParseConnectionPath_round_trip_witness :
    ParseConnectionPath "connections/connection-0".data = ("connection-0".data, none) :=
  ParseConnectionPath_round_trip "connection-0".data (by decide) (by decide)

/-! ## `strconv.ParseUint` and the decimal value -/

theorem digitVal_of_digit {c : Char} (h : isDecimalDigit c = true) :
    digitVal c = some (c.toNat - 48) ∧ c.toNat - 48 < 10 := by
  simp only [isDecimalDigit, decide_eq_true_eq] at h
  refine ⟨by simp [digitVal, h], by omega⟩

theorem digitVal_of_not_digit {c : Char} (h : isDecimalDigit c = false) :
    digitVal c = none ∨ ∃ d, digitVal c = some d ∧ 10 ≤ d := by
  simp only [isDecimalDigit, decide_eq_false_iff_not] at h
  unfold digitVal
  simp only [if_neg h]
  split
  · exact Or.inr ⟨_, rfl, by omega⟩
  · exact Or.inl rfl

theorem parseUintLoop_of_not_digit {c : Char} (n : Nat) (t : GoString)
    (h : isDecimalDigit c = false) :
    parseUintLoop n (c :: t) = (0, some Error.ErrSyntax) := by
  rcases digitVal_of_not_digit h with h1 | ⟨d, h1, h2⟩
  · simp [parseUintLoop, h1]
  · simp [parseUintLoop, h1, h2]

theorem le_decimalValueFrom (n : Nat) (d : GoString) : n ≤ decimalValueFrom n d := by
  induction d generalizing n with
  | nil => simp [decimalValueFrom]
  | cons c t ih =>
    have := ih (10 * n + (c.toNat - 48))
    simp only [decimalValueFrom, List.foldl_cons] at this ⊢
    omega

theorem parseUintLoop_eq_ok_iff (n v : Nat) (d : GoString) (hn : n ≤ maxUint64) :
    parseUintLoop n d = (v, none)
      ↔ (∀ ch ∈ d, isDecimalDigit ch = true) ∧ decimalValueFrom n d = v ∧ v ≤ maxUint64 := by
  induction d generalizing n with
  | nil =>
    simp only [parseUintLoop, decimalValueFrom, List.foldl_nil, Prod.mk.injEq, and_true,
      List.not_mem_nil, false_implies, implies_true, true_and]
    constructor
    · intro h; exact ⟨h, h ▸ hn⟩
    · intro h; exact h.1
  | cons c t ih =>
    cases hc : isDecimalDigit c with
    | false =>
      rw [parseUintLoop_of_not_digit n t hc]
      constructor
      · intro h; simp at h
      · intro h
        have := h.1 c (List.mem_cons_self _ _)
        rw [hc] at this
        exact Bool.noConfusion this
    | true =>
      obtain ⟨hd, hlt⟩ := digitVal_of_digit hc
      have hge := le_decimalValueFrom (10 * n + (c.toNat - 48)) t
      have hval : decimalValueFrom n (c :: t)
          = decimalValueFrom (10 * n + (c.toNat - 48)) t := by
        simp [decimalValueFrom]
      have hall : (∀ ch ∈ c :: t, isDecimalDigit ch = true)
          ↔ ∀ ch ∈ t, isDecimalDigit ch = true := by
        simp [hc]
      rw [hval, hall]
      simp only [maxUint64] at hn hge ⊢
      simp only [parseUintLoop, hd, maxUint64]
      rw [if_neg (by omega)]
      by_cases h1 : n ≥ 18446744073709551615 / 10 + 1
      · rw [if_pos h1]
        constructor
        · intro h; simp at h
        · intro h; omega
      · rw [if_neg h1]
        by_cases h2 : 10 * n + (c.toNat - 48) ≤ 18446744073709551615
        · have e1 : (n * 10 % (18446744073709551615 + 1) + (c.toNat - 48))
              % (18446744073709551615 + 1) = 10 * n + (c.toNat - 48) := by omega
          have e2 : n * 10 % (18446744073709551615 + 1) = 10 * n := by omega
          have e3 : (10 * n + (c.toNat - 48)) % (18446744073709551615 + 1)
              = 10 * n + (c.toNat - 48) := by omega
          simp only [e1, e2, e3]
          rw [if_neg (by omega)]
          have := ih (10 * n + (c.toNat - 48)) (by simp only [maxUint64]; exact h2)
          simp only [maxUint64] at this
          exact this
        · rw [if_pos (by omega)]
          constructor
          · intro h; simp at h
          · intro h; omega

theorem ParseUint_eq_ok_iff (v : Nat) (d : GoString) :
    ParseUint d = (v, none)
      ↔ d ≠ [] ∧ (∀ ch ∈ d, isDecimalDigit ch = true) ∧ decimalValue d = v
        ∧ v ≤ maxUint64 := by
  unfold ParseUint decimalValue
  by_cases h : d = []
  · simp [h]
  · rw [if_neg h, parseUintLoop_eq_ok_iff 0 v d (by simp [maxUint64])]
    simp [h]

theorem digitChar_toNat {d : Nat} (h : d < 10) : (digitChar d).toNat = 48 + d := by
  interval_cases d <;> rfl

theorem isDecimalDigit_digitChar {d : Nat} (h : d < 10) :
    isDecimalDigit (digitChar d) = true := by
  interval_cases d <;> rfl

theorem decimalValueFrom_eq (n : Nat) (l : GoString) :
    decimalValueFrom n l = n * 10 ^ l.length + decimalValue l := by
  unfold decimalValue
  induction l generalizing n with
  | nil => simp [decimalValueFrom]
  | cons c t ih =>
    have h1 := ih (10 * n + (c.toNat - 48))
    have h2 := ih (10 * 0 + (c.toNat - 48))
    simp only [decimalValueFrom, List.foldl_cons, List.length_cons] at h1 h2 ⊢
    rw [h1, h2]
    ring

theorem decimalLoop_spec (fuel n : Nat) (acc : GoString) (hf : n < fuel)
    (hacc : ∀ ch ∈ acc, isDecimalDigit ch = true) :
    (∀ ch ∈ decimalLoop fuel n acc, isDecimalDigit ch = true)
      ∧ decimalLoop fuel n acc ≠ []
      ∧ decimalValue (decimalLoop fuel n acc) = n * 10 ^ acc.length + decimalValue acc := by
  induction fuel generalizing n acc with
  | zero => omega
  | succ fuel ih =>
    unfold decimalLoop
    by_cases h : n < 10
    · rw [if_pos h]
      refine ⟨?_, by simp, ?_⟩
      · intro ch hch
        rcases List.mem_cons.mp hch with rfl | hm
        · exact isDecimalDigit_digitChar h
        · exact hacc ch hm
      · have hv : decimalValue (digitChar n :: acc) = decimalValueFrom n acc := by
          simp [decimalValue, decimalValueFrom, digitChar_toNat h]
        rw [hv, decimalValueFrom_eq]
    · rw [if_neg h]
      have hm : n % 10 < 10 := Nat.mod_lt _ (by omega)
      have hacc2 : ∀ ch ∈ digitChar (n % 10) :: acc, isDecimalDigit ch = true := by
        intro ch hch
        rcases List.mem_cons.mp hch with rfl | hmem
        · exact isDecimalDigit_digitChar hm
        · exact hacc ch hmem
      obtain ⟨h1, h2, h3⟩ := ih (n / 10) (digitChar (n % 10) :: acc) (by omega) hacc2
      refine ⟨h1, h2, ?_⟩
      have hv : decimalValue (digitChar (n % 10) :: acc) = decimalValueFrom (n % 10) acc := by
        simp [decimalValue, decimalValueFrom, digitChar_toNat hm]
      rw [h3, hv, decimalValueFrom_eq, List.length_cons]
      have hn : n = 10 * (n / 10) + n % 10 := (Nat.div_add_mod n 10).symm
      generalize n / 10 = q at hn ⊢
      generalize n % 10 = r at hn ⊢
      subst hn
      ring

theorem decimal_spec (n : Nat) :
    (∀ ch ∈ decimal n, isDecimalDigit ch = true) ∧ decimal n ≠ []
      ∧ decimalValue (decimal n) = n := by
  have h := decimalLoop_spec (n + 1) n [] (by omega) (by simp)
  refine ⟨h.1, h.2.1, ?_⟩
  have := h.2.2
  simpa [decimal, decimalValue, decimalValueFrom] using this

theorem decimalLoop_head (fuel n : Nat) (acc : GoString) (hf : n < fuel) (hn : 0 < n) :
    (decimalLoop fuel n acc).head? ≠ some '0' := by
  induction fuel generalizing n acc with
  | zero => omega
  | succ fuel ih =>
    unfold decimalLoop
    by_cases h : n < 10
    · rw [if_pos h]
      interval_cases n <;> simp [digitChar]
    · rw [if_neg h]
      exact ih (n / 10) _ (by omega) (by omega)

theorem decimal_no_leading_zero (n : Nat) (hn : 0 < n) : (decimal n).head? ≠ some '0' :=
  decimalLoop_head (n + 1) n [] (by omega) hn

theorem decimal_zero : decimal 0 = "0".data := by decide

theorem decimal_maxUint64 : decimal maxUint64 = "18446744073709551615".data := by decide

/-! ## `ParseIdentifier` -/

theorem HasPrefix_iff (s pre : GoString) : HasPrefix s pre = true ↔ ∃ d, s = pre ++ d := by
  unfold HasPrefix
  rw [List.isPrefixOf_iff_prefix]
  constructor
  · rintro ⟨d, hd⟩; exact ⟨d, hd.symm⟩
  · rintro ⟨d, hd⟩; exact ⟨d, hd.symm⟩

theorem Cut_append_self {pre : GoString} (d : GoString) (hpre : pre ≠ []) :
    Cut pre (pre ++ d) = some ([], d) := by
  cases pre with
  | nil => exact absurd rfl hpre
  | cons x xs =>
    have hp : List.isPrefixOf (x :: xs) (x :: (xs ++ d)) = true := by
      rw [List.isPrefixOf_iff_prefix]
      exact ⟨d, rfl⟩
    show Cut (x :: xs) (x :: (xs ++ d)) = some ([], d)
    unfold Cut
    rw [if_pos hp]
    simp

theorem Split_length_pos (s sep : GoString) (hsep : sep ≠ []) : 0 < (Split s sep).length := by
  cases h : Cut sep s with
  | none => simp [Split_of_Cut_none hsep h]
  | some p =>
    obtain ⟨a, b⟩ := p
    simp [Split_of_Cut_some hsep h]

theorem ParseIdentifier_append (pre d : GoString) (hpre : pre ≠ []) :
    ParseIdentifier (pre ++ d) pre
      = match Cut pre d with
        | some _ => (0, some Error.ErrInvalidID)
        | none =>
          match ParseUint d with
          | (sequence, none) => (sequence, none)
          | (_, some err) => (0, some err) := by
  have hp : HasPrefix (pre ++ d) pre = true := (HasPrefix_iff _ _).mpr ⟨d, rfl⟩
  have hs : Split (pre ++ d) pre = [] :: Split d pre :=
    Split_of_Cut_some hpre (Cut_append_self d hpre)
  unfold ParseIdentifier
  simp only [hp, hs, Bool.not_true, Bool.false_eq_true, if_false]
  cases h : Cut pre d with
  | none =>
    rw [Split_of_Cut_none hpre h]
    simp
  | some p =>
    obtain ⟨a, b⟩ := p
    have := Split_length_pos b pre hpre
    rw [Split_of_Cut_some hpre h]
    simp only [List.length_cons]
    rw [if_pos (by omega)]

theorem ParseIdentifier_of_digits (pre d : GoString)
    (hpre : ∃ ch ∈ pre, isDecimalDigit ch = false) (hd : d ≠ [])
    (hall : ∀ ch ∈ d, isDecimalDigit ch = true) (hv : decimalValue d ≤ maxUint64) :
    ParseIdentifier (pre ++ d) pre = (decimalValue d, none) := by
  obtain ⟨ch, hmem, hch⟩ := hpre
  have hne : pre ≠ [] := List.ne_nil_of_mem hmem
  have hnot : ch ∉ d := by
    intro h
    rw [hall ch h] at hch
    exact Bool.noConfusion hch
  have hu : ParseUint d = (decimalValue d, none) :=
    (ParseUint_eq_ok_iff _ _).mpr ⟨hd, hall, rfl, hv⟩
  rw [ParseIdentifier_append pre d hne, Cut_none_of_not_mem hmem hnot, hu]

theorem ParseIdentifier_value_or_error (identifier pre : GoString) :
    (∃ n, ParseIdentifier identifier pre = (n, none))
      ∨ ∃ e, ParseIdentifier identifier pre = (0, some e) := by
  unfold ParseIdentifier
  split
  · exact Or.inr ⟨_, rfl⟩
  · simp only
    split
    · exact Or.inr ⟨_, rfl⟩
    · split
      · exact Or.inr ⟨_, rfl⟩
      · split
        · exact Or.inl ⟨_, rfl⟩
        · exact Or.inr ⟨_, rfl⟩

/-- Claim C4: for a prefix with at least one character that is not a decimal
digit and a sequence `n` below `2 ^ 64`, `ParseIdentifier` applied to the prefix
followed by the decimal rendering of `n` returns `n` and no error. -/
theorem ParseIdentifier_round_trip (pre : GoString) (n : Nat)
    (hpre : ∃ ch ∈ pre, isDecimalDigit ch = false) (hn : n < 2 ^ 64) :
    ParseIdentifier (pre ++ decimal n) pre = (n, none) := by
  obtain ⟨hall, hne, hv⟩ := decimal_spec n
  have h := ParseIdentifier_of_digits pre (decimal n) hpre hne hall
    (by rw [hv]; simp only [maxUint64]; omega)
  rw [hv] at h
  exact h

/-- Witness of claim C4: the identifier "channel-7" with the prefix "channel-"
parses to the sequence 7. -/
theorem ParseIdentifier_round_trip_witness :
    ParseIdentifier "channel-7".data "channel-".data = (7, none) :=
  ParseIdentifier_round_trip "channel-".data 7 ⟨'c', by decide, by decide⟩ (by decide)

/-- Claim C5: for a prefix with at least one character that is not a decimal
digit, `ParseIdentifier` succeeds with the value `n` exactly when the identifier
is the prefix followed by a non-empty string of decimal digits whose value is
`n`, with `n` below `2 ^ 64`; in every other case it returns 0 and an error. -/
theorem ParseIdentifier_eq_reference (identifier pre : GoString)
    (hpre : ∃ ch ∈ pre, isDecimalDigit ch = false) :
    (∀ n, ParseIdentifier identifier pre = (n, none)
        ↔ ∃ d, identifier = pre ++ d ∧ d ≠ [] ∧ (∀ ch ∈ d, isDecimalDigit ch = true)
            ∧ decimalValue d = n ∧ n < 2 ^ 64)
      ∧ ((¬ ∃ d, identifier = pre ++ d ∧ d ≠ [] ∧ (∀ ch ∈ d, isDecimalDigit ch = true)
            ∧ decimalValue d < 2 ^ 64)
          → ∃ e, ParseIdentifier identifier pre = (0, some e)) := by
  have hne : pre ≠ [] := by
    obtain ⟨ch, hmem, _⟩ := hpre
    exact List.ne_nil_of_mem hmem
  have key : ∀ n, ParseIdentifier identifier pre = (n, none)
      ↔ ∃ d, identifier = pre ++ d ∧ d ≠ [] ∧ (∀ ch ∈ d, isDecimalDigit ch = true)
          ∧ decimalValue d = n ∧ n < 2 ^ 64 := by
    intro n
    constructor
    · intro h
      have hp : HasPrefix identifier pre = true := by
        cases hh : HasPrefix identifier pre with
        | true => rfl
        | false => simp [ParseIdentifier, hh] at h
      obtain ⟨d, rfl⟩ := (HasPrefix_iff _ _).mp hp
      rw [ParseIdentifier_append pre d hne] at h
      cases hc : Cut pre d with
      | some p => simp [hc] at h
      | none =>
        rw [hc] at h
        simp only at h
        have hu : ParseUint d = (n, none) := by
          rcases hpu : ParseUint d with ⟨v, _ | e⟩
          · rw [hpu] at h; exact h
          · rw [hpu] at h; simp at h
        obtain ⟨h1, h2, h3, h4⟩ := (ParseUint_eq_ok_iff n d).mp hu
        simp only [maxUint64] at h4
        exact ⟨d, rfl, h1, h2, h3, by omega⟩
    · rintro ⟨d, rfl, h1, h2, h3, h4⟩
      have h := ParseIdentifier_of_digits pre d hpre h1 h2
        (by rw [h3]; simp only [maxUint64]; omega)
      rw [h3] at h
      exact h
  refine ⟨key, ?_⟩
  intro hno
  rcases ParseIdentifier_value_or_error identifier pre with ⟨n, hn⟩ | he
  · obtain ⟨d, h0, h1, h2, h3, h4⟩ := (key n).mp hn
    exact absurd ⟨d, h0, h1, h2, h3 ▸ h4⟩ hno
  · exact he

/-- Witness of claim C5: with the prefix "channel-", the identifier "channel-007"
parses to 7, the value of its digit string "007". -/
theorem ParseIdentifier_eq_reference_witness :
    ParseIdentifier "channel-007".data "channel-".data = (7, none) :=
  ((ParseIdentifier_eq_reference "channel-007".data "channel-".data
      ⟨'c', by decide, by decide⟩).1 7).mpr
    ⟨"007".data, by decide, by decide, by decide, by decide, by decide⟩

theorem Split_eq_head_tail (s : GoString) :
    Split s ['/'] = (Split s ['/']).headD [] :: (Split s ['/']).tail := by
  have h := Split_length_pos s ['/'] (by decide)
  cases hs : Split s ['/'] with
  | nil => rw [hs] at h; simp at h
  | cons a l => rfl

theorem findAllRuns_eq_filter (run s : GoString) :
    findAllRuns run s
      = ((run ++ (Split s ['/']).headD []) :: (Split s ['/']).tail).filter
          (fun seg => decide (seg ≠ [])) := by
  induction s generalizing run with
  | nil =>
    rw [Split_slash_nil]
    by_cases h : run = [] <;> simp [findAllRuns, h]
  | cons c t ih =>
    by_cases hc : c = '/'
    · subst hc
      have h0 := ih []
      rw [List.nil_append, ← Split_eq_head_tail] at h0
      rw [Split_slash_cons_slash]
      by_cases h : run = [] <;> simp [findAllRuns, h, h0]
    · rw [Split_slash_cons_other t hc]
      simp only [findAllRuns, if_neg hc, ih, List.headD_cons, List.tail_cons,
        List.append_assoc, List.singleton_append]

theorem pathRegexFindAllString_eq (path : GoString) :
    pathRegexFindAllString path = nonEmptySegments path := by
  unfold pathRegexFindAllString nonEmptySegments
  rw [findAllRuns_eq_filter, List.nil_append, ← Split_eq_head_tail]

theorem parseClientStatePath_eq (path : GoString) :
    parseClientStatePath path
      = if (nonEmptySegments path).length ≠ 3
            ∨ (nonEmptySegments path).getD 0 [] ≠ KeyClientStorePrefix
            ∨ (nonEmptySegments path).getD 2 [] ≠ KeyClientState
            ∨ ∀ ch ∈ (nonEmptySegments path).getD 1 [], IsSpace ch = true
        then ([], some Error.ErrInvalidPath)
        else ((nonEmptySegments path).getD 1 [], none) := by
  unfold parseClientStatePath
  simp only [pathRegexFindAllString_eq, TrimSpace_eq_nil_iff]
  by_cases h1 : (nonEmptySegments path).length ≠ 3
  · rw [if_pos h1, if_pos (Or.inl h1)]
  · by_cases h2 : (nonEmptySegments path).getD 0 [] ≠ KeyClientStorePrefix
    · rw [if_neg h1, if_pos h2, if_pos (Or.inr (Or.inl h2))]
    · by_cases h3 : (nonEmptySegments path).getD 2 [] ≠ KeyClientState
      · rw [if_neg h1, if_neg h2, if_pos h3, if_pos (Or.inr (Or.inr (Or.inl h3)))]
      · by_cases h4 : ∀ ch ∈ (nonEmptySegments path).getD 1 [], IsSpace ch = true
        · rw [if_neg h1, if_neg h2, if_neg h3, if_pos h4,
            if_pos (Or.inr (Or.inr (Or.inr h4)))]
        · rw [if_neg h1, if_neg h2, if_neg h3, if_neg h4, if_neg]
          rintro (h | h | h | h)
          exacts [h1 h, h2 h, h3 h, h4 h]

/-- Claim C7: with `segs` the non-empty segments of the path,
`parseClientStatePath` returns an `ErrInvalidPath` error exactly when `segs` does
not have three elements, or its first is not "clients", or its third is not
"clientState", or its second is made only of white space; otherwise it returns
the second segment and no error. -/
theorem parseClientStatePath_spec (path : GoString) :
    ((parseClientStatePath path).2 = some Error.ErrInvalidPath
        ↔ (nonEmptySegments path).length ≠ 3
          ∨ (nonEmptySegments path).getD 0 [] ≠ KeyClientStorePrefix
          ∨ (nonEmptySegments path).getD 2 [] ≠ KeyClientState
          ∨ ∀ ch ∈ (nonEmptySegments path).getD 1 [], IsSpace ch = true)
      ∧ (¬ ((nonEmptySegments path).length ≠ 3
            ∨ (nonEmptySegments path).getD 0 [] ≠ KeyClientStorePrefix
            ∨ (nonEmptySegments path).getD 2 [] ≠ KeyClientState
            ∨ ∀ ch ∈ (nonEmptySegments path).getD 1 [], IsSpace ch = true)
          → parseClientStatePath path = ((nonEmptySegments path).getD 1 [], none)) := by
  rw [parseClientStatePath_eq]
  by_cases h : (nonEmptySegments path).length ≠ 3
      ∨ (nonEmptySegments path).getD 0 [] ≠ KeyClientStorePrefix
      ∨ (nonEmptySegments path).getD 2 [] ≠ KeyClientState
      ∨ ∀ ch ∈ (nonEmptySegments path).getD 1 [], IsSpace ch = true
  · rw [if_pos h]
    exact ⟨⟨fun _ => h, fun _ => rfl⟩, fun hn => absurd h hn⟩
  · rw [if_neg h]
    refine ⟨⟨fun he => ?_, fun hh => absurd hh h⟩, fun _ => rfl⟩
    simp at he

/-- Witness of claim C7: the path "clients/ /clientState", whose second segment
is a single space, is rejected, and "clients/07-tendermint-0/clientState" gives
its second segment. -/
theorem parseClientStatePath_spec_witness :
    (parseClientStatePath "clients/ /clientState".data).2 = some Error.ErrInvalidPath
      ∧ parseClientStatePath "clients/07-tendermint-0/clientState".data
          = ((nonEmptySegments "clients/07-tendermint-0/clientState".data).getD 1 [], none) :=
  ⟨(parseClientStatePath_spec "clients/ /clientState".data).1.mpr
      (Or.inr (Or.inr (Or.inr (by decide)))),
    (parseClientStatePath_spec "clients/07-tendermint-0/clientState".data).2 (by decide)⟩

/-- Claim C8: a path with fewer than four slashes splits in fewer than five
segments, and `ParseChannelPath` returns two empty identifiers and an
`ErrInvalidPath` error on it. -/
theorem ParseChannelPath_rejects_short (path : GoString) (h : path.count '/' < 4) :
    (Split path ['/']).length < 5
      ∧ ParseChannelPath path = ([], [], some Error.ErrInvalidPath) := by
  have hl : (Split path ['/']).length < 5 := by
    rw [Split_slash_length]
    omega
  exact ⟨hl, ParseChannelPath_of_short path hl⟩

/-- Witness of claim C8: the path "channelEnds/ports/transfer/channels", with
three slashes, is rejected. -/
theorem ParseChannelPath_rejects_short_witness :
    (Split "channelEnds/ports/transfer/channels".data ['/']).length < 5
      ∧ ParseChannelPath "channelEnds/ports/transfer/channels".data
          = ([], [], some Error.ErrInvalidPath) :=
  ParseChannelPath_rejects_short "channelEnds/ports/transfer/channels".data (by decide)

/-- Claim C9, counterexample: the path
"channelEnds/ports/transfer/channels/channel-0/extra" has six segments, and
`ParseChannelPath` accepts it, returning "transfer" and "channel-0" with no
error. -/
theorem ParseChannelPath_accepts_longer :
    (Split "channelEnds/ports/transfer/channels/channel-0/extra".data ['/']).length = 6
      ∧ ParseChannelPath "channelEnds/ports/transfer/channels/channel-0/extra".data
          = ("transfer".data, "channel-0".data, none) := by
  decide

/-- Claim C9, amended: a path with fewer than five segments is rejected with
`ErrInvalidPath`; a path with five segments or more is not rejected for its
length: when its second segment is "ports" and its fourth is "channels",
`ParseChannelPath` returns its third and fifth segments and no error. -/
theorem ParseChannelPath_segment_count (path : GoString) :
    ((Split path ['/']).length < 5
        → ParseChannelPath path = ([], [], some Error.ErrInvalidPath))
      ∧ (5 ≤ (Split path ['/']).length
        → (Split path ['/']).getD 1 [] = KeyPortPrefix
        → (Split path ['/']).getD 3 [] = KeyChannelPrefix
        → ParseChannelPath path
            = ((Split path ['/']).getD 2 [], (Split path ['/']).getD 4 [], none)) :=
  ⟨ParseChannelPath_of_short path, ParseChannelPath_of_literals path⟩

/-- Witness of the amended claim C9: the two-segment path "channelEnds/ports" is
rejected, and the six-segment path with the right literals is parsed. -/
theorem ParseChannelPath_segment_count_witness :
    ParseChannelPath "channelEnds/ports".data = ([], [], some Error.ErrInvalidPath)
      ∧ ParseChannelPath "channelEnds/ports/transfer/channels/channel-0/extra".data
          = ((Split "channelEnds/ports/transfer/channels/channel-0/extra".data ['/']).getD 2 [],
              (Split "channelEnds/ports/transfer/channels/channel-0/extra".data ['/']).getD 4 [],
              none) :=
  ⟨(ParseChannelPath_segment_count "channelEnds/ports".data).1 (by decide),
    (ParseChannelPath_segment_count
      "channelEnds/ports/transfer/channels/channel-0/extra".data).2
      (by decide) (by decide) (by decide)⟩

/-- Claim C10, counterexample: `ParseChannelPath` returns an empty port id for
"channelEnds/ports//channels/channel-0", an empty channel id for
"channelEnds/ports/transfer/channels/" and a port id made of one space for
"channelEnds/ports/ /channels/channel-0", each time with no error. -/
theorem ParseChannelPath_accepts_blank :
    ParseChannelPath "channelEnds/ports//channels/channel-0".data
        = ([], "channel-0".data, none)
      ∧ ParseChannelPath "channelEnds/ports/transfer/channels/".data
        = ("transfer".data, [], none)
      ∧ ParseChannelPath "channelEnds/ports/ /channels/channel-0".data
        = (" ".data, "channel-0".data, none) := by
  decide

/-- Claim C10, amended: `ParseChannelPath` does not look at the identifier
segments: on a path of the channel grammar (five segments or more, the second
"ports", the fourth "channels") whose port-id or channel-id segment is empty or
made only of white space, it returns those two segments unchanged with no error,
so one of the identifiers it returns is blank. -/
theorem ParseChannelPath_blank_identifiers (path : GoString)
    (h : 5 ≤ (Split path ['/']).length)
    (h1 : (Split path ['/']).getD 1 [] = KeyPortPrefix)
    (h3 : (Split path ['/']).getD 3 [] = KeyChannelPrefix)
    (hb : (∀ ch ∈ (Split path ['/']).getD 2 [], IsSpace ch = true)
      ∨ (∀ ch ∈ (Split path ['/']).getD 4 [], IsSpace ch = true)) :
    ParseChannelPath path
        = ((Split path ['/']).getD 2 [], (Split path ['/']).getD 4 [], none)
      ∧ ((∀ ch ∈ (ParseChannelPath path).1, IsSpace ch = true)
        ∨ (∀ ch ∈ (ParseChannelPath path).2.1, IsSpace ch = true)) := by
  have hp := ParseChannelPath_of_literals path h h1 h3
  refine ⟨hp, ?_⟩
  rw [hp]
  exact hb

/-- Witness of the amended claim C10: the path
"channelEnds/ports/transfer/channels/ ", whose channel id is one space, is
accepted and the channel id returned is blank. -/
theorem ParseChannelPath_blank_identifiers_witness :
    ParseChannelPath "channelEnds/ports/transfer/channels/ ".data
        = ((Split "channelEnds/ports/transfer/channels/ ".data ['/']).getD 2 [],
            (Split "channelEnds/ports/transfer/channels/ ".data ['/']).getD 4 [], none)
      ∧ ((∀ ch ∈ (ParseChannelPath "channelEnds/ports/transfer/channels/ ".data).1,
            IsSpace ch = true)
        ∨ (∀ ch ∈ (ParseChannelPath "channelEnds/ports/transfer/channels/ ".data).2.1,
            IsSpace ch = true)) :=
  ParseChannelPath_blank_identifiers "channelEnds/ports/transfer/channels/ ".data
    (by decide) (by decide) (by decide) (Or.inr (by decide))

/-! ## `ParseConnectionPath` and the `MustParse` variants -/

theorem ParseConnectionPath_eq (path : GoString) :
    ParseConnectionPath path
      = if (nonEmptySegments path).length = 1 then ((nonEmptySegments path).getD 0 [], none)
        else if (nonEmptySegments path).length ≠ 2 then ([], some Error.ErrInvalidPath)
        else ((nonEmptySegments path).getD 1 [], none) := by
  unfold ParseConnectionPath
  simp only [pathRegexFindAllString_eq]

theorem nonEmptySegments_two {a c : GoString} (ha : a ≠ []) (ha1 : '/' ∉ a)
    (hc : c ≠ []) (hc1 : '/' ∉ c) : nonEmptySegments (a ++ ['/'] ++ c) = [a, c] := by
  have hn : a ++ ['/'] ++ c = a ++ '/' :: c := by simp
  rw [← pathRegexFindAllString_eq, hn]
  unfold pathRegexFindAllString
  rw [findAllRuns_append_slash _ _ ha1, findAllRuns_of_not_mem _ hc1]
  simp [ha, hc]

/-- Claim C11, counterexample: the first segment of "foo/connection-0" is not
"connections", and `ParseConnectionPath` accepts the path, returning
"connection-0" with no error. -/
theorem ParseConnectionPath_accepts_wrong_literal :
    (nonEmptySegments "foo/connection-0".data).getD 0 [] ≠ "connections".data
      ∧ ParseConnectionPath "foo/connection-0".data = ("connection-0".data, none) := by
  decide

/-- Claim C11, amended: `ParseConnectionPath` does not compare the first segment
with a literal: for a two-segment path `a/c`, whatever the non-empty first
segment `a` is, it returns the second segment `c` and no error. -/
theorem ParseConnectionPath_ignores_literal (a c : GoString) (ha : a ≠ [])
    (ha1 : '/' ∉ a) (hc : c ≠ []) (hc1 : '/' ∉ c) :
    ParseConnectionPath (a ++ ['/'] ++ c) = (c, none) := by
  rw [ParseConnectionPath_eq, nonEmptySegments_two ha ha1 hc hc1]
  rfl

/-- Witness of the amended claim C11: "foo/connection-0" parses to
"connection-0". -/
theorem ParseConnectionPath_ignores_literal_witness :
    ParseConnectionPath "foo/connection-0".data = ("connection-0".data, none) :=
  ParseConnectionPath_ignores_literal "foo".data "connection-0".data
    (by decide) (by decide) (by decide) (by decide)

/-- Claim C12: `ParseConnectionPath` is decided by the number of non-empty
segments of the path: with one segment it returns that segment, with two it
returns the second, and with none (as for "" and "/") or three or more it
returns the empty string and an `ErrInvalidPath` error. -/
theorem ParseConnectionPath_by_segment_count (path : GoString) :
    ((nonEmptySegments path).length = 1
        → ParseConnectionPath path = ((nonEmptySegments path).getD 0 [], none))
      ∧ ((nonEmptySegments path).length = 2
        → ParseConnectionPath path = ((nonEmptySegments path).getD 1 [], none))
      ∧ ((nonEmptySegments path).length = 0 ∨ 3 ≤ (nonEmptySegments path).length
        → ParseConnectionPath path = ([], some Error.ErrInvalidPath))
      ∧ (nonEmptySegments []).length = 0 ∧ (nonEmptySegments ['/']).length = 0 := by
  rw [ParseConnectionPath_eq]
  refine ⟨fun h => ?_, fun h => ?_, fun h => ?_, by decide, by decide⟩
  · rw [if_pos h]
  · rw [if_neg (by omega), if_neg (by omega)]
  · rw [if_neg (by omega), if_pos (by omega)]

/-- Witness of claim C12: "connection-0" has one segment and is returned,
"connections/connection-0" has two and gives the second, "" and "a/b/c" are
rejected. -/
theorem ParseConnectionPath_by_segment_count_witness :
    ParseConnectionPath "connection-0".data
        = ((nonEmptySegments "connection-0".data).getD 0 [], none)
      ∧ ParseConnectionPath "connections/connection-0".data
        = ((nonEmptySegments "connections/connection-0".data).getD 1 [], none)
      ∧ ParseConnectionPath [] = ([], some Error.ErrInvalidPath)
      ∧ ParseConnectionPath "a/b/c".data = ([], some Error.ErrInvalidPath) :=
  ⟨(ParseConnectionPath_by_segment_count "connection-0".data).1 (by decide),
    (ParseConnectionPath_by_segment_count "connections/connection-0".data).2.1 (by decide),
    (ParseConnectionPath_by_segment_count []).2.2.1 (Or.inl (by decide)),
    (ParseConnectionPath_by_segment_count "a/b/c".data).2.2.1 (Or.inr (by decide))⟩

/-- Claim C13: each `MustParse` variant panics exactly when its fallible parser
returns an error, and when it does not panic it returns the identifiers the
fallible parser returns. -/
theorem MustParse_agrees (path : GoString) :
    (((∃ e, MustParseClientStatePath path = Must.panics e)
          ↔ (parseClientStatePath path).2 ≠ none)
        ∧ ∀ v, MustParseClientStatePath path = Must.returns v
          ↔ parseClientStatePath path = (v, none))
      ∧ (((∃ e, MustParseConnectionPath path = Must.panics e)
          ↔ (ParseConnectionPath path).2 ≠ none)
        ∧ ∀ v, MustParseConnectionPath path = Must.returns v
          ↔ ParseConnectionPath path = (v, none))
      ∧ (((∃ e, MustParseChannelPath path = Must.panics e)
          ↔ (ParseChannelPath path).2.2 ≠ none)
        ∧ ∀ p c, MustParseChannelPath path = Must.returns (p, c)
          ↔ ParseChannelPath path = (p, c, none)) := by
  refine ⟨?_, ?_, ?_⟩
  · unfold MustParseClientStatePath
    rcases parseClientStatePath path with ⟨v, _ | e⟩ <;> simp
  · unfold MustParseConnectionPath
    rcases ParseConnectionPath path with ⟨v, _ | e⟩ <;> simp
  · unfold MustParseChannelPath
    rcases ParseChannelPath path with ⟨p, c, _ | e⟩ <;> simp

/-! ## No index out of range, no exhausted fuel -/

theorem index_of_lt {xs : List GoString} {i : Nat} (h : i < xs.length) :
    index xs i = Run.done (xs.getD i []) := by
  unfold index
  rw [List.getD_eq_getElem?_getD, List.getElem?_eq_getElem h]
  rfl

theorem Cut_left_none {sep s a b : GoString} (h : Cut sep s = some (a, b)) :
    Cut sep a = none := by
  induction s generalizing a b with
  | nil => simp [Cut] at h
  | cons c t ih =>
    unfold Cut at h
    split at h
    · simp only [Option.some.injEq, Prod.mk.injEq] at h
      rw [← h.1]
      rfl
    · rename_i hp
      cases hc : Cut sep t with
      | none => simp [hc] at h
      | some p =>
        obtain ⟨a', b'⟩ := p
        simp only [hc, Option.some.injEq, Prod.mk.injEq] at h
        obtain ⟨rfl, rfl⟩ := h
        have ht := Cut_eq_some hc
        have hnp : ¬ sep.isPrefixOf (c :: a') = true := by
          intro hpre
          apply hp
          rw [List.isPrefixOf_iff_prefix] at hpre ⊢
          rw [ht]
          exact hpre.trans ⟨sep ++ b', by simp⟩
        unfold Cut
        rw [if_neg hnp, ih hc]

/-- The fuel of `Split` is never exhausted: no piece it returns still contains
the separator. -/
theorem Split_complete {sep : GoString} (hsep : sep ≠ []) (n : Nat) :
    ∀ s : GoString, s.length ≤ n → ∀ piece ∈ Split s sep, Cut sep piece = none := by
  induction n with
  | zero =>
    intro s hs piece hmem
    have h0 : s = [] := List.length_eq_zero.mp (Nat.le_zero.mp hs)
    subst h0
    have hnil : Cut sep [] = none := rfl
    rw [Split_of_Cut_none hsep hnil] at hmem
    rw [List.mem_singleton.mp hmem]
    exact hnil
  | succ n ih =>
    intro s hs piece hmem
    cases hc : Cut sep s with
    | none =>
      rw [Split_of_Cut_none hsep hc] at hmem
      rw [List.mem_singleton.mp hmem]
      exact hc
    | some p =>
      obtain ⟨a, b⟩ := p
      have hlt := Cut_length_lt hsep hc
      rw [Split_of_Cut_some hsep hc] at hmem
      rcases List.mem_cons.mp hmem with rfl | hm
      · exact Cut_left_none hc
      · exact ih b (by omega) piece hm

/-- Claim C14: the fallible parsers never panic: with every slice index
checked, `ParseIdentifier`, `parseClientStatePath`, `ParseConnectionPath` and
`ParseChannelPath` finish on every input with the value or error of the
unchecked definitions, so each index is in range where it is evaluated. -/
theorem parsers_never_panic (identifier pre path : GoString) :
    ParseIdentifierRun identifier pre = Run.done (ParseIdentifier identifier pre)
      ∧ parseClientStatePathRun path = Run.done (parseClientStatePath path)
      ∧ ParseConnectionPathRun path = Run.done (ParseConnectionPath path)
      ∧ ParseChannelPathRun path = Run.done (ParseChannelPath path) := by
  refine ⟨?_, ?_, ?_, ?_⟩
  · unfold ParseIdentifierRun ParseIdentifier
    cases hp : HasPrefix identifier pre with
    | false => rfl
    | true =>
      simp only [Bool.not_true, Bool.false_eq_true, if_false]
      by_cases hl : (Split identifier pre).length ≠ 2
      · simp only [if_pos hl]
      · simp only [if_neg hl]
        rw [index_of_lt (by omega), index_of_lt (by omega)]
        simp only [Run.andThen]
        split
        · rfl
        · generalize ParseUint ((Split identifier pre).getD 1 []) = r
          rcases r with ⟨v, _ | e⟩ <;> rfl
  · unfold parseClientStatePathRun parseClientStatePath
    by_cases hl : (pathRegexFindAllString path).length ≠ 3
    · simp only [if_pos hl]
    · simp only [if_neg hl]
      rw [index_of_lt (by omega), index_of_lt (by omega), index_of_lt (by omega)]
      simp only [Run.andThen]
      split
      · rfl
      · split
        · rfl
        · split <;> rfl
  · unfold ParseConnectionPathRun ParseConnectionPath
    by_cases h1 : (pathRegexFindAllString path).length = 1
    · simp only [if_pos h1]
      rw [index_of_lt (by omega)]
      rfl
    · simp only [if_neg h1]
      by_cases h2 : (pathRegexFindAllString path).length ≠ 2
      · simp only [if_pos h2]
      · simp only [if_neg h2]
        rw [index_of_lt (by omega)]
        rfl
  · unfold ParseChannelPathRun ParseChannelPath
    by_cases hl : (Split path ['/']).length < 5
    · simp only [if_pos hl]
    · simp only [if_neg hl]
      rw [index_of_lt (by omega), index_of_lt (by omega), index_of_lt (by omega),
        index_of_lt (by omega)]
      simp only [Run.andThen]
      by_cases h1 : (Split path ['/']).getD 1 [] ≠ KeyPortPrefix
      · rw [if_pos h1, if_pos (Or.inl h1)]
      · rw [if_neg h1]
        by_cases h3 : (Split path ['/']).getD 3 [] ≠ KeyChannelPrefix
        · rw [if_pos h3, if_pos (Or.inr h3)]
        · rw [if_neg h3, if_neg (by intro h; rcases h with h | h; exact h1 h; exact h3 h)]

/-! ## Behaviour of `ParseChannelPath` and `ParseIdentifier` at the edges -/

theorem ParseChannelPath_eq (path : GoString) :
    ParseChannelPath path
      = if 5 ≤ (Split path ['/']).length ∧ (Split path ['/']).getD 1 [] = KeyPortPrefix
            ∧ (Split path ['/']).getD 3 [] = KeyChannelPrefix
        then ((Split path ['/']).getD 2 [], (Split path ['/']).getD 4 [], none)
        else ([], [], some Error.ErrInvalidPath) := by
  by_cases h : (Split path ['/']).length < 5
  · rw [ParseChannelPath_of_short path h, if_neg (by omega)]
  · by_cases h1 : (Split path ['/']).getD 1 [] = KeyPortPrefix
    · by_cases h3 : (Split path ['/']).getD 3 [] = KeyChannelPrefix
      · rw [ParseChannelPath_of_literals path (by omega) h1 h3, if_pos ⟨by omega, h1, h3⟩]
      · unfold ParseChannelPath
        simp only
        rw [if_neg h, if_pos (Or.inr h3), if_neg (fun hh => h3 hh.2.2)]
    · unfold ParseChannelPath
      simp only
      rw [if_neg h, if_pos (Or.inl h1), if_neg (fun hh => h1 hh.2.1)]

theorem Split_slash_channel_path (r p c : GoString)
    (hr : '/' ∉ r) (hp : '/' ∉ p) (hc : '/' ∉ c) :
    Split ('/' :: (r ++ ['/'] ++ KeyPortPrefix ++ ['/'] ++ p ++ ['/'] ++ KeyChannelPrefix
        ++ ['/'] ++ c)) ['/']
      = [[], r, KeyPortPrefix, p, KeyChannelPrefix, c] := by
  rw [Split_slash_cons_slash, Split_channel_path r p c hr hp hc]

/-- Claim C18, counterexample: the path "/ports/transfer/channels/channel-0"
begins with a slash, and `ParseChannelPath` accepts it, returning "transfer" and
"channel-0" with no error. -/
theorem ParseChannelPath_accepts_leading_slash :
    "/ports/transfer/channels/channel-0".data.head? = some '/'
      ∧ ParseChannelPath "/ports/transfer/channels/channel-0".data
          = ("transfer".data, "channel-0".data, none) := by
  decide

/-- Claim C18, amended: with `s` the split of the path on the slash,
`ParseChannelPath` succeeds exactly when `s` has five pieces or more, `s[1]` is
"ports" and `s[3]` is "channels"; it then returns `(s[2], s[4])`, and otherwise
an `ErrInvalidPath` error; two paths that agree on `s[1]` to `s[4]` get the same
result, so `s[0]` and the pieces after the fifth are ignored; a leading slash
only shifts the pieces by one, and the path `/r/ports/p/channels/c` is rejected
unless `r` is "ports" and `p` is "channels". -/
theorem ParseChannelPath_strict_split (path : GoString) :
    ((ParseChannelPath path).2.2 = none
        ↔ 5 ≤ (Split path ['/']).length ∧ (Split path ['/']).getD 1 [] = KeyPortPrefix
          ∧ (Split path ['/']).getD 3 [] = KeyChannelPrefix)
      ∧ ((ParseChannelPath path).2.2 = none
        → ParseChannelPath path
            = ((Split path ['/']).getD 2 [], (Split path ['/']).getD 4 [], none))
      ∧ ((ParseChannelPath path).2.2 ≠ none
        → ParseChannelPath path = ([], [], some Error.ErrInvalidPath))
      ∧ (∀ other : GoString, 5 ≤ (Split path ['/']).length
        → 5 ≤ (Split other ['/']).length
        → (∀ i, 1 ≤ i → i ≤ 4 → (Split other ['/']).getD i [] = (Split path ['/']).getD i [])
        → ParseChannelPath other = ParseChannelPath path)
      ∧ (∀ r p c : GoString, '/' ∉ r → '/' ∉ p → '/' ∉ c
        → (r ≠ KeyPortPrefix ∨ p ≠ KeyChannelPrefix)
        → ParseChannelPath ('/' :: (r ++ ['/'] ++ KeyPortPrefix ++ ['/'] ++ p ++ ['/']
              ++ KeyChannelPrefix ++ ['/'] ++ c))
            = ([], [], some Error.ErrInvalidPath)) := by
  refine ⟨?_, ?_, ?_, ?_, ?_⟩
  · rw [ParseChannelPath_eq]
    split
    · rename_i h; exact ⟨fun _ => h, fun _ => rfl⟩
    · rename_i h
      refine ⟨fun hn => ?_, fun hh => absurd hh h⟩
      simp at hn
  · rw [ParseChannelPath_eq]
    split
    · intro _; rfl
    · intro h; simp at h
  · rw [ParseChannelPath_eq]
    split
    · intro h; simp at h
    · intro _; rfl
  · intro other h5 h5o hagree
    rw [ParseChannelPath_eq other, ParseChannelPath_eq path,
      hagree 1 (by omega) (by omega), hagree 2 (by omega) (by omega),
      hagree 3 (by omega) (by omega), hagree 4 (by omega) (by omega)]
    simp only [h5, h5o, true_and]
  · intro r p c hr hp hc hne
    rw [ParseChannelPath_eq, Split_slash_channel_path r p c hr hp hc]
    rw [if_neg]
    rintro ⟨_, h1, h3⟩
    rcases hne with h | h
    · exact h h1
    · exact h h3

/-- Witness of the amended claim C18: "/channelEnds/ports/transfer/channels/channel-0"
is rejected, and "x/ports/transfer/channels/channel-0/extra" gets the result of
"channelEnds/ports/transfer/channels/channel-0". -/
theorem ParseChannelPath_strict_split_witness :
    ParseChannelPath "/channelEnds/ports/transfer/channels/channel-0".data
        = ([], [], some Error.ErrInvalidPath)
      ∧ ParseChannelPath "x/ports/transfer/channels/channel-0/extra".data
        = ParseChannelPath "channelEnds/ports/transfer/channels/channel-0".data :=
  ⟨(ParseChannelPath_strict_split []).2.2.2.2 "channelEnds".data "transfer".data
      "channel-0".data (by decide) (by decide) (by decide) (Or.inl (by decide)),
    (ParseChannelPath_strict_split
      "channelEnds/ports/transfer/channels/channel-0".data).2.2.2.1
      "x/ports/transfer/channels/channel-0/extra".data (by decide) (by decide)
      (by intro i h1 h4; interval_cases i <;> decide)⟩

/-- Claim C19: with the empty prefix `ParseIdentifier` fails on every identifier
with the value 0 and an `ErrInvalidID` error, although parsing "7" with nothing
stripped gives 7. -/
theorem ParseIdentifier_empty_prefix :
    (∀ identifier : GoString, ParseIdentifier identifier [] = (0, some Error.ErrInvalidID))
      ∧ ParseIdentifier "7".data [] = (0, some Error.ErrInvalidID)
      ∧ ParseIdentifier [] [] = (0, some Error.ErrInvalidID)
      ∧ ParseUint ("7".data.drop ([] : GoString).length) = (7, none) := by
  refine ⟨?_, by decide, by decide, by decide⟩
  intro identifier
  have hs : Split identifier [] = identifier.map (fun c => [c]) := by simp [Split]
  unfold ParseIdentifier
  simp only [HasPrefix, List.isPrefixOf, Bool.not_true, Bool.false_eq_true, if_false, hs,
    List.length_map]
  by_cases hl : identifier.length ≠ 2
  · rw [if_pos hl]
  · rw [if_neg hl]
    match identifier, hl with
    | [a, b], _ => rfl
    | [], h => exact absurd (by simp) h
    | [_], h => exact absurd (by simp) h
    | _ :: _ :: _ :: _, h => exact absurd (by simp) h

theorem decimalValue_cons_zero (d : GoString) : decimalValue ('0' :: d) = decimalValue d := by
  simp [decimalValue, decimalValueFrom]

/-- Claim C20: `ParseIdentifier` is not injective on the identifiers it accepts:
with the prefix "channel-" both "channel-7" and "channel-007" parse to 7, so the
prefix followed by the decimal rendering of the parsed sequence is not always
the parsed identifier; more generally a zero put before the digits does not
change the result. -/
theorem ParseIdentifier_not_injective :
    (∃ a b : GoString, a ≠ b ∧ ∃ n, ParseIdentifier a "channel-".data = (n, none)
        ∧ ParseIdentifier b "channel-".data = (n, none)
        ∧ "channel-".data ++ decimal n ≠ b)
      ∧ ParseIdentifier "channel-7".data "channel-".data = (7, none)
      ∧ ParseIdentifier "channel-007".data "channel-".data = (7, none)
      ∧ "channel-".data ++ decimal 7 ≠ "channel-007".data
      ∧ (∀ pre d : GoString, (∃ ch ∈ pre, isDecimalDigit ch = false) → d ≠ []
        → (∀ ch ∈ d, isDecimalDigit ch = true) → decimalValue d ≤ maxUint64
        → ParseIdentifier (pre ++ '0' :: d) pre = ParseIdentifier (pre ++ d) pre) := by
  refine ⟨⟨"channel-7".data, "channel-007".data, by decide, 7, by decide, by decide,
    by decide⟩, by decide, by decide, by decide, ?_⟩
  intro pre d hpre hd hall hv
  have hall0 : ∀ ch ∈ '0' :: d, isDecimalDigit ch = true := by
    intro ch hch
    rcases List.mem_cons.mp hch with rfl | hm
    · rfl
    · exact hall ch hm
  rw [ParseIdentifier_of_digits pre d hpre hd hall hv,
    ParseIdentifier_of_digits pre ('0' :: d) hpre (by simp) hall0
      (by rw [decimalValue_cons_zero]; exact hv),
    decimalValue_cons_zero]

/-- Witness of claim C20: "channel-07" parses as "channel-7" does. -/
theorem ParseIdentifier_not_injective_witness :
    ParseIdentifier ("channel-".data ++ '0' :: "7".data) "channel-".data
      = ParseIdentifier ("channel-".data ++ "7".data) "channel-".data :=
  ParseIdentifier_not_injective.2.2.2.2 "channel-".data "7".data
    ⟨'c', by decide, by decide⟩ (by decide) (by decide) (by decide)

end Host

namespace Json

open Host

/-! ## The JSON decoder on string literals and punctuation -/

theorem map_append_map (o : Option (List Token)) (t1 t2 : List Token) :
    (o.map (fun ts => t2 ++ ts)).map (fun ts => t1 ++ ts)
      = o.map (fun ts => (t1 ++ t2) ++ ts) := by
  cases o <;> simp

end Json

namespace InterchainAccounts

open Host

/-! ## Packet data validation -/

set_option maxRecDepth 8000 in
theorem len_largeMemo : len largeMemo = 444 := by decide

theorem len_memo : len "memo".data = 4 := by decide

/-- Claim C15: `ValidateBasic` returns no error exactly when the type is not
`UNSPECIFIED`, the data is not empty (the nil slice counts as empty) and the
length of the memo is at most the maximum memo length; an empty memo is
accepted; and for a bound between the length of "memo" and that of `largeMemo`
the six cases of the test have the outcome the test expects. -/
theorem ValidateBasic_spec (maxMemoLength : Nat) (pd : InterchainAccountPacketData) :
    (ValidateBasic maxMemoLength pd = Validation.pass
        ↔ pd.type ≠ PacketType.UNSPECIFIED ∧ dataLen pd.data ≠ 0
          ∧ len pd.memo ≤ maxMemoLength)
      ∧ (pd.type ≠ PacketType.UNSPECIFIED → dataLen pd.data ≠ 0 → pd.memo = []
        → ValidateBasic maxMemoLength pd = Validation.pass)
      ∧ (4 ≤ maxMemoLength → maxMemoLength < 444
        → ValidateBasic maxMemoLength
              ⟨PacketType.EXECUTE_TX, some [100, 97, 116, 97], "memo".data⟩ = Validation.pass
          ∧ ValidateBasic maxMemoLength
              ⟨PacketType.EXECUTE_TX, some [100, 97, 116, 97], []⟩ = Validation.pass
          ∧ ValidateBasic maxMemoLength
              ⟨PacketType.UNSPECIFIED, some [100, 97, 116, 97], "memo".data⟩ = Validation.fail
          ∧ ValidateBasic maxMemoLength
              ⟨PacketType.EXECUTE_TX, some [], "memo".data⟩ = Validation.fail
          ∧ ValidateBasic maxMemoLength
              ⟨PacketType.EXECUTE_TX, none, "memo".data⟩ = Validation.fail
          ∧ ValidateBasic maxMemoLength
              ⟨PacketType.EXECUTE_TX, some [100, 97, 116, 97], largeMemo⟩ = Validation.fail) := by
  have key : ValidateBasic maxMemoLength pd = Validation.pass
      ↔ pd.type ≠ PacketType.UNSPECIFIED ∧ dataLen pd.data ≠ 0
        ∧ len pd.memo ≤ maxMemoLength := by
    unfold ValidateBasic
    by_cases h1 : pd.type = PacketType.UNSPECIFIED
    · simp [h1]
    · by_cases h2 : dataLen pd.data = 0
      · simp [h1, h2]
      · by_cases h3 : len pd.memo > maxMemoLength
        · simp only [if_neg h1, if_neg h2, if_pos h3]
          constructor
          · intro h; cases h
          · intro h; omega
        · simp only [if_neg h1, if_neg h2, if_neg h3]
          exact ⟨fun _ => ⟨h1, h2, by omega⟩, fun _ => trivial⟩
  refine ⟨key, ?_, ?_⟩
  · intro h1 h2 h3
    refine key.mpr ⟨h1, h2, ?_⟩
    rw [h3]
    exact Nat.zero_le _
  · intro hlo hhi
    have hm := len_memo
    have hl := len_largeMemo
    have h0 : len ([] : GoString) = 0 := rfl
    refine ⟨?_, ?_, ?_, ?_, ?_, ?_⟩
    · simp only [ValidateBasic, dataLen, hm]
      rw [if_neg (by decide), if_neg (by decide), if_neg (by omega)]
    · simp only [ValidateBasic, dataLen, h0]
      rw [if_neg (by decide), if_neg (by decide), if_neg (by omega)]
    · rfl
    · rfl
    · rfl
    · simp only [ValidateBasic, dataLen, hl]
      rw [if_neg (by decide), if_neg (by decide), if_pos (by omega)]

/-- Witness of claim C15: with the bound 256 the six cases of the test have the
expected outcome. -/
theorem ValidateBasic_spec_witness :
    ValidateBasic 256 ⟨PacketType.EXECUTE_TX, some [100, 97, 116, 97], "memo".data⟩
        = Validation.pass
      ∧ ValidateBasic 256 ⟨PacketType.EXECUTE_TX, some [100, 97, 116, 97], []⟩
        = Validation.pass
      ∧ ValidateBasic 256 ⟨PacketType.UNSPECIFIED, some [100, 97, 116, 97], "memo".data⟩
        = Validation.fail
      ∧ ValidateBasic 256 ⟨PacketType.EXECUTE_TX, some [], "memo".data⟩ = Validation.fail
      ∧ ValidateBasic 256 ⟨PacketType.EXECUTE_TX, none, "memo".data⟩ = Validation.fail
      ∧ ValidateBasic 256 ⟨PacketType.EXECUTE_TX, some [100, 97, 116, 97], largeMemo⟩
        = Validation.fail :=
  (ValidateBasic_spec 256 ⟨PacketType.EXECUTE_TX, none, []⟩).2.2 (by decide) (by decide)

/-! ## Custom packet data of the memo -/

theorem lookup_cons_self (store : AccountStore) (p a : GoString) :
    List.lookup p ((p, a) :: store) = some a := by
  simp [List.lookup_cons]

theorem lookup_cons_other (store : AccountStore) {p q : GoString} (a : GoString)
    (h : q ≠ p) : List.lookup p ((q, a) :: store) = List.lookup p store := by
  have hb : (p == q) = false := by
    simpa using Ne.symm h
  rw [List.lookup_cons, hb]

/-- Claim C17: for a port id without a registered-account entry, after
`SetInterchainAccountAddress(p, a)` the call `GetInterchainAccountAddress(p)`
returns `a` and `found = true`; for a port id without an entry it returns the
empty address and `found = false`, and a write for another port does not change
what it returns. -/
theorem registered_account_round_trip (store : AccountStore) (p a : GoString)
    (hfree : store.lookup p = none) :
    (SetInterchainAccountAddress store p a).2 = none
      ∧ GetInterchainAccountAddress (SetInterchainAccountAddress store p a).1 p = (a, true)
      ∧ GetInterchainAccountAddress store p = ([], false)
      ∧ (∀ q b, q ≠ p
        → GetInterchainAccountAddress (SetInterchainAccountAddress store q b).1 p
            = ([], false)) := by
  refine ⟨?_, ?_, ?_, ?_⟩
  · simp [SetInterchainAccountAddress, hfree]
  · simp only [SetInterchainAccountAddress, hfree, GetInterchainAccountAddress,
      lookup_cons_self]
  · simp [GetInterchainAccountAddress, hfree]
  · intro q b hq
    unfold SetInterchainAccountAddress
    cases hl : List.lookup q store with
    | none => simp only [GetInterchainAccountAddress, lookup_cons_other store b hq, hfree]
    | some v => simp only [GetInterchainAccountAddress, hfree]

/-- Witness of claim C17: on the empty directory, the address "test-acc-addr"
set for the port "test-port" is the one read back. -/
theorem registered_account_round_trip_witness :
    GetInterchainAccountAddress
        (SetInterchainAccountAddress [] "test-port".data "test-acc-addr".data).1
        "test-port".data
      = ("test-acc-addr".data, true) :=
  (registered_account_round_trip [] "test-port".data "test-acc-addr".data rfl).2.1

end InterchainAccounts

namespace Host

/-! ## Extra slashes and the parsers that use the regular expression -/

theorem findAllRuns_append_congr {s t : GoString}
    (h : ∀ run, findAllRuns run s = findAllRuns run t) (a run : GoString) :
    findAllRuns run (a ++ s) = findAllRuns run (a ++ t) := by
  induction a generalizing run with
  | nil => exact h run
  | cons c a ih =>
    simp only [List.cons_append, findAllRuns]
    split
    · split
      · exact ih []
      · exact congrArg (List.cons run) (ih [])
    · exact ih _

theorem findAllRuns_slash_slash (run b : GoString) :
    findAllRuns run ('/' :: '/' :: b) = findAllRuns run ('/' :: b) := by
  simp only [findAllRuns, if_true]

/-- A slash put in front of a path does not change its segments. -/
theorem nonEmptySegments_leading_slash (path : GoString) :
    nonEmptySegments ('/' :: path) = nonEmptySegments path := by
  rw [← pathRegexFindAllString_eq, ← pathRegexFindAllString_eq]
  simp only [pathRegexFindAllString, findAllRuns, if_true]

/-- A slash doubled inside a path does not change its segments. -/
theorem nonEmptySegments_double_slash (a b : GoString) :
    nonEmptySegments (a ++ '/' :: '/' :: b) = nonEmptySegments (a ++ '/' :: b) := by
  rw [← pathRegexFindAllString_eq, ← pathRegexFindAllString_eq]
  exact findAllRuns_append_congr (fun run => findAllRuns_slash_slash run b) a []

/-- A slash put at the end of a path does not change its segments. -/
theorem nonEmptySegments_trailing_slash (path : GoString) :
    nonEmptySegments (path ++ ['/']) = nonEmptySegments path := by
  rw [← pathRegexFindAllString_eq, ← pathRegexFindAllString_eq]
  have h : ∀ run, findAllRuns run ['/'] = findAllRuns run [] := by
    intro run
    simp only [findAllRuns, if_true]
  have := findAllRuns_append_congr h path []
  rw [List.append_nil] at this
  exact this

/-- Claim C21: two paths with the same list of non-empty segments get the same
outcome from `parseClientStatePath`, the same error or the same client id, and
the same outcome from `ParseConnectionPath`; so the three distinct paths
"clients/c/clientState", "/clients/c/clientState" and "clients//c/clientState/"
parse to the same client id. -/
theorem regex_parsers_ignore_extra_slashes (p q : GoString)
    (h : nonEmptySegments p = nonEmptySegments q) :
    parseClientStatePath p = parseClientStatePath q
      ∧ MustParseClientStatePath p = MustParseClientStatePath q
      ∧ ParseConnectionPath p = ParseConnectionPath q
      ∧ ("clients/c/clientState".data ≠ "/clients/c/clientState".data
        ∧ "clients/c/clientState".data ≠ "clients//c/clientState/".data
        ∧ parseClientStatePath "clients/c/clientState".data = ("c".data, none)
        ∧ parseClientStatePath "/clients/c/clientState".data = ("c".data, none)
        ∧ parseClientStatePath "clients//c/clientState/".data = ("c".data, none)) := by
  have h1 : parseClientStatePath p = parseClientStatePath q := by
    rw [parseClientStatePath_eq, parseClientStatePath_eq, h]
  refine ⟨h1, ?_, ?_, by decide⟩
  · unfold MustParseClientStatePath
    rw [h1]
  · rw [ParseConnectionPath_eq, ParseConnectionPath_eq, h]

/-- Witness of claim C21: "/clients/c/clientState" and "clients//c/clientState/"
have the same segments and the same outcome, and so have "connections/c" and
"/connections//c". -/
theorem regex_parsers_ignore_extra_slashes_witness :
    parseClientStatePath "/clients/c/clientState".data
        = parseClientStatePath "clients//c/clientState/".data
      ∧ ParseConnectionPath "connections/c".data
        = ParseConnectionPath "/connections//c".data :=
  ⟨(regex_parsers_ignore_extra_slashes "/clients/c/clientState".data
      "clients//c/clientState/".data (by decide)).1,
    (regex_parsers_ignore_extra_slashes "connections/c".data "/connections//c".data
      (by decide)).2.2.1⟩

end Host

namespace InterchainAccounts

open Host

/-! ## The error codes of the module -/

theorem Register_of_free (used : List RegisteredError) (M : GoString) (code : Nat)
    (desc : GoString) (h : ∀ e ∈ used, e.codespace = M → e.code ≠ code) :
    Register used M code desc = some (used ++ [⟨M, code, desc⟩]) := by
  unfold Register
  rw [if_neg]
  intro hany
  rw [List.any_eq_true] at hany
  obtain ⟨e, he, hd⟩ := hany
  rw [decide_eq_true_eq] at hd
  exact h e he hd.1 hd.2

theorem registerAll_of_free (M : GoString) :
    ∀ (decls : List (String × Nat × GoString)) (used : List RegisteredError),
      (declaredCodes decls).Nodup
      → (∀ e ∈ used, e.codespace = M → e.code ∉ declaredCodes decls)
      → registerAll M used decls
          = some (used ++ decls.map (fun d => ⟨M, d.2.1, d.2.2⟩)) := by
  intro decls
  induction decls with
  | nil =>
    intro used _ _
    simp [registerAll]
  | cons d rest ih =>
    intro used hnd hfree
    have hnd2 : d.2.1 ∉ declaredCodes rest ∧ (declaredCodes rest).Nodup := by
      simpa [declaredCodes] using hnd
    have hreg : Register used M d.2.1 d.2.2 = some (used ++ [⟨M, d.2.1, d.2.2⟩]) := by
      apply Register_of_free
      intro e he hc heq
      apply hfree e he hc
      rw [heq]
      simp [declaredCodes]
    unfold registerAll
    rw [hreg]
    simp only
    have hfree2 : ∀ e ∈ used ++ [RegisteredError.mk M d.2.1 d.2.2],
        e.codespace = M → e.code ∉ declaredCodes rest := by
      intro e he hc
      rcases List.mem_append.mp he with h1 | h1
      · intro hmem
        apply hfree e h1 hc
        simp only [declaredCodes, List.map_cons, List.mem_cons]
        exact Or.inr hmem
      · rw [List.mem_singleton.mp h1]
        exact hnd2.1
    rw [ih _ hnd2.2 hfree2]
    simp

/-- A second registration of the declarations in the same codespace panics on the
duplicate codes. -/
theorem registerAll_twice :
    (registerAll "interchainaccounts".data [] errorDeclarations).bind
        (fun used => registerAll "interchainaccounts".data used errorDeclarations)
      = none := by
  decide

/-- Claim C23: the twelve errors of `errors.go` are registered with the codes 2
to 13, each once, so the codes are pairwise distinct, among them 4 for
`ErrPortAlreadyBound`, 9 for `ErrInterchainAccountAlreadySet` and 11 for
`ErrInvalidVersion`; and on a registry that holds none of these codes in the
codespace of the module the registration of the twelve does not panic. -/
theorem error_codes_distinct :
    (declaredCodes errorDeclarations).Nodup
      ∧ declaredCodes errorDeclarations = [2, 3, 4, 5, 6, 7, 8, 9, 10, 11, 12, 13]
      ∧ errorDeclarations.length = 12
      ∧ codeOf "ErrPortAlreadyBound" = some 4
      ∧ codeOf "ErrInterchainAccountAlreadySet" = some 9
      ∧ codeOf "ErrInvalidVersion" = some 11
      ∧ (∀ (ModuleName : GoString) (used : List RegisteredError),
          (∀ e ∈ used, e.codespace = ModuleName → e.code < 2 ∨ 13 < e.code)
          → ∃ registry, registerAll ModuleName used errorDeclarations = some registry
              ∧ registry.length = used.length + 12) := by
  have hcodes : declaredCodes errorDeclarations = [2, 3, 4, 5, 6, 7, 8, 9, 10, 11, 12, 13] := by
    decide
  have hnd : (declaredCodes errorDeclarations).Nodup := by
    rw [hcodes]
    decide
  refine ⟨hnd, hcodes, by decide, by decide, by decide, by decide, ?_⟩
  intro M used hfree
  refine ⟨_, registerAll_of_free M errorDeclarations used hnd ?_, ?_⟩
  · intro e he hc hmem
    rw [hcodes] at hmem
    have hr := hfree e he hc
    simp only [List.mem_cons, List.mem_singleton, List.not_mem_nil, or_false] at hmem
    omega
  · simp only [List.length_append, List.length_map]
    rfl

/-- Witness of claim C23: from the empty registry the twelve registrations in the
codespace "interchainaccounts" succeed. -/
theorem error_codes_distinct_witness :
    ∃ registry, registerAll "interchainaccounts".data [] errorDeclarations = some registry
      ∧ registry.length = ([] : List RegisteredError).length + 12 :=
  error_codes_distinct.2.2.2.2.2.2 "interchainaccounts".data []
    (by intro e he; cases he)

end InterchainAccounts

namespace Callbacks

open Host

/-! ## The event of a callback -/

/-- Claim C22: `EmitCallbackEvent` adds one event to the events of the context;
its trigger attribute is the callback type unchanged; its type is the
source-callback event type for the acknowledgement and the timeout callback
types, the destination-callback event type for the receive-packet callback type
and "unknown" for every other callback type. -/
theorem EmitCallbackEvent_event_type (k : Constants) (events : List Event)
    (packet : Packet) (callbackType : GoString) (callbackData : CallbackData)
    (err : Option GoString) :
    ∃ event, EmitCallbackEvent k events packet callbackType callbackData err
          = events ++ [event]
      ∧ event.attributes.lookup AttributeKey.AttributeKeyCallbackTrigger = some callbackType
      ∧ (callbackType = k.CallbackTypeAcknowledgement
          ∨ callbackType = k.CallbackTypeTimeoutPacket
        → event.type = k.EventTypeSourceCallback)
      ∧ (callbackType = k.CallbackTypeReceivePacket
        → k.CallbackTypeReceivePacket ≠ k.CallbackTypeAcknowledgement
        → k.CallbackTypeReceivePacket ≠ k.CallbackTypeTimeoutPacket
        → event.type = k.EventTypeDestinationCallback)
      ∧ (callbackType ≠ k.CallbackTypeAcknowledgement
        → callbackType ≠ k.CallbackTypeTimeoutPacket
        → callbackType ≠ k.CallbackTypeReceivePacket
        → event.type = "unknown".data) := by
  refine ⟨_, rfl, ?_, ?_, ?_, ?_⟩
  · cases err <;> rfl
  · rintro (h | h)
    · simp only [h, if_true]
    · simp only [h, if_true, ite_self]
  · intro h h1 h2
    subst h
    simp only [if_neg h1, if_neg h2, if_true]
  · intro h1 h2 h3
    simp only [if_neg h1, if_neg h2, if_neg h3]

/-- Witness of claim C22: with the sample constants the callback type
"something" gives one event of type "unknown" whose trigger is "something", and
the receive-packet callback type gives the destination-callback event type. -/
theorem EmitCallbackEvent_event_type_witness :
    (∃ event, EmitCallbackEvent sampleConstants [] ⟨1, "mock".data, "channel-0".data⟩
          "something".data ⟨"addr".data, 100000⟩ none = [] ++ [event]
        ∧ event.attributes.lookup AttributeKey.AttributeKeyCallbackTrigger
            = some "something".data
        ∧ event.type = "unknown".data)
      ∧ ∃ event, EmitCallbackEvent sampleConstants [] ⟨1, "mock".data, "channel-0".data⟩
          sampleConstants.CallbackTypeReceivePacket ⟨"addr".data, 100000⟩ none
            = [] ++ [event]
        ∧ event.type = sampleConstants.EventTypeDestinationCallback := by
  constructor
  · obtain ⟨event, h1, h2, _, _, h5⟩ :=
      EmitCallbackEvent_event_type sampleConstants [] ⟨1, "mock".data, "channel-0".data⟩
        "something".data ⟨"addr".data, 100000⟩ none
    exact ⟨event, h1, h2, h5 (by decide) (by decide) (by decide)⟩
  · obtain ⟨event, h1, _, _, h4, _⟩ :=
      EmitCallbackEvent_event_type sampleConstants [] ⟨1, "mock".data, "channel-0".data⟩
        sampleConstants.CallbackTypeReceivePacket ⟨"addr".data, 100000⟩ none
    exact ⟨event, h1, h4 rfl (by decide) (by decide)⟩

end Callbacks
